import Mathlib

/-!
AutoSMP (arch/arm/kernel/autosmp.c).

A shallow embedding of the hotplug governor: the periodic work function
`asmp_work_fn`, the power handlers `asmp_suspend` and `asmp_resume`, and the
disable path `asmp_stop`.  C `unsigned int` values are natural numbers reduced
modulo 2^32 where the C arithmetic can wrap.  A cpumask is the predicate
"bit `cpu` is set"; only the bits below `nr_cpu_ids` are ever inspected.
-/

namespace autosmp

/-! ## Machine integers -/

/-- The value of `UINT_MAX` for a 32-bit `unsigned int`. -/
def UINT_MAX : Nat := 4294967295

/-- Conversion to `unsigned int`: reduction modulo 2^32. -/
def u32 (n : Nat) : Nat := n % 4294967296

/-! ## Data model -/

/-- A cpumask: bit `cpu` of the bitmap. -/
abbrev cpumask := Nat → Bool

/-- The tunables, `struct asmp_param_struct` (all fields `unsigned int`). -/
structure asmp_param_struct where
  delay : Nat
  max_cpus : Nat
  min_cpus : Nat
  cpufreq_up : Nat
  cpufreq_down : Nat
  cycle_up : Nat
  cycle_down : Nat
deriving DecidableEq, Repr

/-- The static initialiser of `asmp_param`. -/
def asmp_param_init : asmp_param_struct :=
  { delay := 100, max_cpus := 2, min_cpus := 1, cpufreq_up := 90,
    cpufreq_down := 45, cycle_up := 1, cycle_down := 1 }

/-- The file's static variables, together with the kernel's `cpu_online_mask`
and the queue state of the delayed work `asmp_work` (`some d`: pending with a
timer of `d` jiffies, `none`: not queued). -/
structure asmp_state where
  asmp_param : asmp_param_struct
  cycle : Nat
  delay0 : Nat
  delay_jif : Nat
  enabled : Bool
  cpu_online_mask : cpumask
  asmp_work : Option Nat

/-- What the governor sees of the machine during one handler run: the number of
possible cpu identifiers, the present mask, whether a hotplug request on a
given cpu goes through at the hardware level, and the jiffies conversion
(`msecs_to_jiffies` depends on the build's HZ). -/
structure platform where
  nr_cpu_ids : Nat
  cpu_present_mask : cpumask
  cpu_up_ok : Nat → Bool
  cpu_down_ok : Nat → Bool
  msecs_to_jiffies : Nat → Nat

/-- The cpufreq readings of one tick: `policy_max` is `policy->max` of
`cpufreq_cpu_get(0)` (`none` for a NULL policy), `quick_get cpu` is
`cpufreq_quick_get(cpu)`. -/
structure cpufreq where
  policy_max : Option Nat
  quick_get : Nat → Nat

/-- A hotplug request issued by the governor. -/
inductive hotplug_call where
  | cpu_up (cpu : Nat)
  | cpu_down (cpu : Nat)
deriving DecidableEq, Repr

/-- The result of running a handler: the new state and the hotplug requests it
issued, in order. -/
structure outcome where
  st : asmp_state
  calls : List hotplug_call

/-! ## Kernel helpers -/

/-- Kernel helper `cpumask_set_cpu`: the mask with bit `cpu` set. -/
def cpumask_set_cpu (cpu : Nat) (mask : cpumask) : cpumask :=
  fun c => if c = cpu then true else mask c

/-- Kernel helper `cpumask_clear_cpu`: the mask with bit `cpu` cleared. -/
def cpumask_clear_cpu (cpu : Nat) (mask : cpumask) : cpumask :=
  fun c => if c = cpu then false else mask c

/-- Kernel helper `cpumask_weight`: the number of set bits among the first
`nbits` bits. -/
def cpumask_weight (nbits : Nat) (mask : cpumask) : Nat :=
  (List.range nbits).countP mask

/-- Kernel helper `num_online_cpus()`: the weight of the online mask. -/
def num_online_cpus (hw : platform) (online : cpumask) : Nat :=
  cpumask_weight hw.nr_cpu_ids online

/-- Kernel helper `num_present_cpus()`: the weight of the present mask. -/
def num_present_cpus (hw : platform) : Nat :=
  cpumask_weight hw.nr_cpu_ids hw.cpu_present_mask

/-- Modelled from the spec: `cpumask_next_zero(n, mask)` (include/linux/cpumask.h
is not among the sources): the lowest identifier above `n` whose bit is clear,
and `nbits` when every later bit is set. -/
def cpumask_next_zero (nbits : Nat) (n : Nat) (mask : cpumask) : Nat :=
  ((List.range nbits).find? (fun c => decide (n < c) && !mask c)).getD nbits

/-- Modelled from the spec: `UnitManager.bring_online`, the kernel's `cpu_up`
(kernel/cpu.c is not among the sources).  The request takes effect only on a
present, currently offline unit with a valid identifier, and only when the
hardware lets it succeed; a failed request changes nothing. -/
def cpu_up (hw : platform) (online : cpumask) (cpu : Nat) : cpumask :=
  if decide (cpu < hw.nr_cpu_ids) && hw.cpu_present_mask cpu && !online cpu
      && hw.cpu_up_ok cpu then
    cpumask_set_cpu cpu online
  else online

/-- Modelled from the spec: `UnitManager.take_offline`, the kernel's `cpu_down`
(kernel/cpu.c is not among the sources).  The request takes effect only on a
currently online unit with a valid identifier, and only when the hardware lets
it succeed; a failed request changes nothing. -/
def cpu_down (hw : platform) (online : cpumask) (cpu : Nat) : cpumask :=
  if decide (cpu < hw.nr_cpu_ids) && online cpu && hw.cpu_down_ok cpu then
    cpumask_clear_cpu cpu online
  else online

/-- Modelled from the spec: the scheduler's `queue_delayed_work`
(kernel/workqueue.c is not among the sources): a work that is not pending is
queued with the given delay, a pending one is left as it is. -/
def queue_delayed_work (work : Option Nat) (delay : Nat) : Option Nat :=
  match work with
  | some d => some d
  | none => some delay

/-- Modelled from the spec: `cancel_delayed_work_sync`: afterwards the work is
neither pending nor running. -/
def cancel_delayed_work_sync (_work : Option Nat) : Option Nat := none

/-! ## The tick, `asmp_work_fn` -/

/-- The locals of the scan loop of `asmp_work_fn` (lines 95-103). -/
structure scan where
  slow_cpu : Nat
  slow_rate : Nat
  fast_rate : Nat
deriving DecidableEq, Repr

/-- One iteration of `for_each_online_cpu(cpu) if (cpu) { ... }`; identifiers
whose online bit is clear are skipped by the iterator. -/
def scan_step (fq : cpufreq) (online : cpumask) (v : scan) (cpu : Nat) : scan :=
  if online cpu then
    if cpu ≠ 0 then
      let rate := u32 (fq.quick_get cpu)
      if rate ≤ v.slow_rate then
        { v with slow_cpu := cpu, slow_rate := rate }
      else if rate > v.fast_rate then
        { v with fast_rate := rate }
      else v
    else v
  else v

/-- The scan loop, started from `slow_cpu = 0`, `slow_rate = UINT_MAX`,
`fast_rate = cpu0_rate`. -/
def scan_online (hw : platform) (fq : cpufreq) (online : cpumask)
    (cpu0_rate : Nat) : scan :=
  (List.range hw.nr_cpu_ids).foldl (scan_step fq online)
    { slow_cpu := 0, slow_rate := UINT_MAX, fast_rate := cpu0_rate }

/-- The locals of `asmp_work_fn` once its sampling part (lines 72-106) has
run. -/
structure work_sample where
  cycle : Nat
  delay0 : Nat
  delay_jif : Nat
  max_rate : Nat
  up_rate : Nat
  down_rate : Nat
  nr_cpu_online : Nat
  cpu0_rate : Nat
  slow_cpu : Nat
  slow_rate : Nat
  fast_rate : Nat
deriving DecidableEq, Repr

/-- Lines 72-106 of `asmp_work_fn`: the counter increment, the interval refresh,
the two thresholds and the rate scan. -/
def asmp_work_sample (hw : platform) (fq : cpufreq) (s : asmp_state) : work_sample :=
  let cycle := u32 (s.cycle + 1)
  let changed := s.asmp_param.delay ≠ s.delay0
  let delay0 := if changed then s.asmp_param.delay else s.delay0
  let delay_jif := if changed then hw.msecs_to_jiffies s.asmp_param.delay else s.delay_jif
  let ret_freq := match fq.policy_max with
    | some m => u32 m
    | none => 0
  let max_rate := ret_freq
  let up_rate := u32 (s.asmp_param.cpufreq_up * max_rate) / 100
  let down_rate := u32 (s.asmp_param.cpufreq_down * max_rate) / 100
  let nr_cpu_online := num_online_cpus hw s.cpu_online_mask
  let cpu0_rate := u32 (fq.quick_get 0)
  let v := scan_online hw fq s.cpu_online_mask cpu0_rate
  let slow_rate := if cpu0_rate < v.slow_rate then cpu0_rate else v.slow_rate
  { cycle := cycle, delay0 := delay0, delay_jif := delay_jif, max_rate := max_rate,
    up_rate := up_rate, down_rate := down_rate, nr_cpu_online := nr_cpu_online,
    cpu0_rate := cpu0_rate, slow_cpu := v.slow_cpu, slow_rate := slow_rate,
    fast_rate := v.fast_rate }

/-- The state a tick leaves when it issues no hotplug request. -/
def work_hold (s : asmp_state) (v : work_sample) : asmp_state :=
  { s with cycle := v.cycle, delay0 := v.delay0, delay_jif := v.delay_jif,
           asmp_work := queue_delayed_work s.asmp_work v.delay_jif }

/-- The tick `asmp_work_fn`: sampling, then the decision of lines 108-123 and
the reschedule of line 125. -/
def asmp_work_fn (hw : platform) (fq : cpufreq) (s : asmp_state) : outcome :=
  let v := asmp_work_sample hw fq s
  if v.slow_rate > v.up_rate then
    if v.nr_cpu_online < s.asmp_param.max_cpus ∧ v.cycle ≥ s.asmp_param.cycle_up then
      let cpu := cpumask_next_zero hw.nr_cpu_ids 0 s.cpu_online_mask
      { st := { work_hold s v with
                  cycle := 0, cpu_online_mask := cpu_up hw s.cpu_online_mask cpu },
        calls := [hotplug_call.cpu_up cpu] }
    else { st := work_hold s v, calls := [] }
  else if v.slow_cpu ≠ 0 ∧ v.fast_rate < v.down_rate then
    if v.nr_cpu_online > s.asmp_param.min_cpus ∧ v.cycle ≥ s.asmp_param.cycle_down then
      { st := { work_hold s v with
                  cycle := 0, cpu_online_mask := cpu_down hw s.cpu_online_mask v.slow_cpu },
        calls := [hotplug_call.cpu_down v.slow_cpu] }
    else { st := work_hold s v, calls := [] }
  else { st := work_hold s v, calls := [] }

/-! ## Power handlers and the disable path -/

/-- The accumulator of a hotplug sweep: the online mask so far, the requests
issued so far, and whether the loop has left through `break`. -/
structure sweep where
  online : cpumask
  calls : List hotplug_call
  stop : Bool

/-- One iteration of the loop of `asmp_suspend` (lines 136-140); the iterator
reads the live online mask. -/
def suspend_step (hw : platform) (a : sweep) (cpu : Nat) : sweep :=
  if a.online cpu then
    if cpu = 0 then a
    else { a with online := cpu_down hw a.online cpu,
                  calls := a.calls ++ [hotplug_call.cpu_down cpu] }
  else a

/-- The power_off handler `asmp_suspend`. -/
def asmp_suspend (hw : platform) (s : asmp_state) : outcome :=
  let work := cancel_delayed_work_sync s.asmp_work
  let a := (List.range hw.nr_cpu_ids).foldl (suspend_step hw)
    { online := s.cpu_online_mask, calls := [], stop := false }
  { st := { s with asmp_work := work, cpu_online_mask := a.online }, calls := a.calls }

/-- One iteration of the restore loop shared by `asmp_resume` (lines 150-155)
and `asmp_stop` (lines 218-223). -/
def restore_step (hw : platform) (max_cpus : Nat) (a : sweep) (cpu : Nat) : sweep :=
  if a.stop then a
  else if hw.cpu_present_mask cpu then
    if num_online_cpus hw a.online ≥ max_cpus then { a with stop := true }
    else if !a.online cpu then
      { a with online := cpu_up hw a.online cpu,
               calls := a.calls ++ [hotplug_call.cpu_up cpu] }
    else a
  else a

/-- The restore loop `for_each_present_cpu(cpu) { ... }`. -/
def restore_loop (hw : platform) (max_cpus : Nat) (online : cpumask) : sweep :=
  (List.range hw.nr_cpu_ids).foldl (restore_step hw max_cpus)
    { online := online, calls := [], stop := false }

/-- The power_on handler `asmp_resume`. -/
def asmp_resume (hw : platform) (s : asmp_state) : outcome :=
  let a := restore_loop hw s.asmp_param.max_cpus s.cpu_online_mask
  { st := { s with cpu_online_mask := a.online,
                   asmp_work := queue_delayed_work s.asmp_work
                     (hw.msecs_to_jiffies s.asmp_param.delay) },
    calls := a.calls }

/-- The disable path `asmp_stop`: the tick is cancelled, then the restore loop
runs. -/
def asmp_stop (hw : platform) (s : asmp_state) : outcome :=
  let work := cancel_delayed_work_sync s.asmp_work
  let a := restore_loop hw s.asmp_param.max_cpus s.cpu_online_mask
  { st := { s with asmp_work := work, cpu_online_mask := a.online }, calls := a.calls }

/-- The configuration invariant of the data model:
`1 ≤ min_units ≤ max_units ≤ total_units`. -/
def valid_config (p : asmp_param_struct) (total_units : Nat) : Prop :=
  1 ≤ p.min_cpus ∧ p.min_cpus ≤ p.max_cpus ∧ p.max_cpus ≤ total_units

instance (p : asmp_param_struct) (n : Nat) : Decidable (valid_config p n) := by
  unfold valid_config; infer_instance

/-! ## Loop invariants -/

/-- Invariant of the scan loop after the identifiers below `k`: `slow_rate` is a
32-bit value, a lower bound of the rate of every non-primary online unit seen,
and either nothing was seen (`slow_cpu = 0`, `slow_rate = UINT_MAX`) or
`slow_rate` is the rate of the non-primary online unit `slow_cpu`. -/
def scan_inv (fq : cpufreq) (online : cpumask) (k : Nat) (v : scan) : Prop :=
  v.slow_rate ≤ UINT_MAX ∧
  (∀ x, x < k → x ≠ 0 → online x = true → v.slow_rate ≤ u32 (fq.quick_get x)) ∧
  ((v.slow_cpu = 0 ∧ v.slow_rate = UINT_MAX) ∨
    (v.slow_cpu ≠ 0 ∧ v.slow_cpu < k ∧ online v.slow_cpu = true ∧
      v.slow_rate = u32 (fq.quick_get v.slow_cpu)))

/-- Invariant of the suspend sweep after the identifiers below `k`, when every
`cpu_down` succeeds: unit 0 is online and every other unit below `k` is
offline. -/
def suspend_inv (k : Nat) (a : sweep) : Prop :=
  a.online 0 = true ∧ ∀ c, c ≠ 0 → c < k → a.online c = false

/-- Invariant of the restore sweep after the identifiers below `k`, when every
`cpu_up` succeeds: every online unit is present, the online count is at most
`max_cpus`, it has reached `max_cpus` if the loop has left through `break`,
and otherwise every present unit below `k` is online. -/
def restore_inv (hw : platform) (max_cpus : Nat) (k : Nat) (a : sweep) : Prop :=
  (∀ c, c < hw.nr_cpu_ids → a.online c = true → hw.cpu_present_mask c = true) ∧
  num_online_cpus hw a.online ≤ max_cpus ∧
  (a.stop = true → max_cpus ≤ num_online_cpus hw a.online) ∧
  (a.stop = false → ∀ c, c < k → hw.cpu_present_mask c = true → a.online c = true)

/-! ## Concrete machines used by the scenarios -/

/-- A machine with `n` possible units, all present, on which every hotplug
request succeeds, with HZ = 100. -/
def hw_all (n : Nat) : platform :=
  { nr_cpu_ids := n, cpu_present_mask := fun c => decide (c < n),
    cpu_up_ok := fun _ => true, cpu_down_ok := fun _ => true,
    msecs_to_jiffies := fun m => (m + 9) / 10 }

/-- The mask with units `0 .. k-1` set. -/
def first_cpus (k : Nat) : cpumask := fun c => decide (c < k)

/-- A state with the given tunables, counter and online mask, the loop enabled
and the tick dispatched (not pending). -/
def mk_state (p : asmp_param_struct) (cycle : Nat) (online : cpumask) : asmp_state :=
  { asmp_param := p, cycle := cycle, delay0 := p.delay, delay_jif := 10,
    enabled := true, cpu_online_mask := online, asmp_work := none }

/-- Readings of the scale-down debounce scenario: maximum rate 1000000, unit 0
at 300000 (the fastest), every other unit at 200000. -/
def debounce_fq : cpufreq :=
  { policy_max := some 1000000, quick_get := fun c => if c = 0 then 300000 else 200000 }

/-- State of the scale-down debounce scenario: `min_cpus = 1`, `cycle_down = 2`,
`cpufreq_down = 45`, units 0 and 1 online, with the given counter. -/
def debounce_state (cycle : Nat) : asmp_state :=
  mk_state { asmp_param_init with cycle_down := 2 } cycle (first_cpus 2)

/-- Readings of the scale-up scenario: maximum rate 1000000, every unit at
950000. -/
def saturated_fq : cpufreq :=
  { policy_max := some 1000000, quick_get := fun _ => 950000 }

/-- State of the scale-up scenario: `max_cpus = 3`, `cycle_up = 1`,
`cpufreq_up = 90`, units 0 and 1 online, with the given counter. -/
def saturated_state (cycle : Nat) : asmp_state :=
  mk_state { asmp_param_init with max_cpus := 3 } cycle (first_cpus 2)

/-- A machine with four possible units of which unit 2 is not present; every
hotplug request on a present unit succeeds. -/
def hw_hole : platform :=
  { nr_cpu_ids := 4, cpu_present_mask := fun c => decide (c < 4) && decide (c ≠ 2),
    cpu_up_ok := fun _ => true, cpu_down_ok := fun _ => true,
    msecs_to_jiffies := fun m => (m + 9) / 10 }

/-- Readings of a load between the two thresholds: maximum rate 1000000, every
unit at 600000. -/
def midband_fq : cpufreq :=
  { policy_max := some 1000000, quick_get := fun _ => 600000 }

/-- A state pinned at its bounds: `min_cpus = max_cpus = 2` with units 0 and 1
online, counter 5. -/
def pinned_state : asmp_state :=
  mk_state { asmp_param_init with min_cpus := 2 } 5 (first_cpus 2)

/-- Readings with one busy unit: maximum rate 1000000, unit 0 at 300000, every
other unit at 800000. -/
def outlier_fq : cpufreq :=
  { policy_max := some 1000000, quick_get := fun c => if c = 0 then 300000 else 800000 }

/-- The default tunables (`min_cpus = 1`, `max_cpus = 2`, `cpufreq_down = 45`,
`cycle_down = 1`) with units 0 and 1 online and counter 0. -/
def default_state : asmp_state :=
  mk_state asmp_param_init 0 (first_cpus 2)

/-- A machine with two possible units, both present, on which no `cpu_up`
request goes through. -/
def hw_stuck : platform :=
  { nr_cpu_ids := 2, cpu_present_mask := fun c => decide (c < 2),
    cpu_up_ok := fun _ => false, cpu_down_ok := fun _ => true,
    msecs_to_jiffies := fun m => (m + 9) / 10 }

/-- The state a power_off leaves with the default tunables (`max_cpus = 2`,
`delay = 100`): only unit 0 online, no tick pending. -/
def suspended_state : asmp_state :=
  mk_state asmp_param_init 0 (first_cpus 1)

/-- A running state on four units: units 0, 1 and 3 online, a tick pending. -/
def running_state : asmp_state :=
  { mk_state { asmp_param_init with max_cpus := 4 } 3
      (fun c => decide (c < 4) && decide (c ≠ 2)) with asmp_work := some 10 }

/-- The online mask the suspend sweep leaves after the identifiers below `k`:
every non-primary unit below `k` whose `cpu_down` goes through is offline, the
other bits are those of `m`. -/
def suspend_mask (hw : platform) (m : cpumask) (k : Nat) : cpumask :=
  fun c => if c ≠ 0 ∧ c < k ∧ hw.cpu_down_ok c = true then false else m c

/-- A mask on which the restore loop has nothing left to do: the online count
has reached `max_cpus`, or no `cpu_up` of a present offline unit goes
through. -/
def restore_settled (hw : platform) (max_cpus : Nat) (m : cpumask) : Prop :=
  max_cpus ≤ num_online_cpus hw m ∨
  ∀ c, c < hw.nr_cpu_ids → hw.cpu_present_mask c = true → m c = false →
    hw.cpu_up_ok c = false

/-- Invariant of the restore sweep after the identifiers below `k`: if the loop
has left through `break` the online count has reached `max_cpus`, and
otherwise every present unit below `k` that is still offline is one whose
`cpu_up` does not go through. -/
def restore_settle_inv (hw : platform) (max_cpus : Nat) (k : Nat) (a : sweep) : Prop :=
  (a.stop = true → max_cpus ≤ num_online_cpus hw a.online) ∧
  (a.stop = false → ∀ c, c < k → hw.cpu_present_mask c = true → a.online c = false →
    hw.cpu_up_ok c = false)

/-! ## The sysfs stores -/

/-- The error number `EINVAL`. -/
def EINVAL : Int := 22

/-- The body of the macro `store_one(file_name, object)` (lines 276-287).
`input` is what `sscanf(buf, "%u", &input)` converted, `none` when it returns
something other than 1; `set_object` is the assignment `asmp_param.object =
input`.  The result is the new `asmp_param` and the returned `ssize_t`. -/
def store_one (set_object : asmp_param_struct → Nat → asmp_param_struct)
    (p : asmp_param_struct) (input : Option Nat) (count : Nat) :
    asmp_param_struct × Int :=
  match input with
  | none => (p, -EINVAL)
  | some v => (set_object p (u32 v), (count : Int))

/-- The instance `store_one(delay, delay)`. -/
def store_delay : asmp_param_struct → Option Nat → Nat → asmp_param_struct × Int :=
  store_one (fun p v => { p with delay := v })

/-- The instance `store_one(min_cpus, min_cpus)`. -/
def store_min_cpus : asmp_param_struct → Option Nat → Nat → asmp_param_struct × Int :=
  store_one (fun p v => { p with min_cpus := v })

/-- The instance `store_one(max_cpus, max_cpus)`. -/
def store_max_cpus : asmp_param_struct → Option Nat → Nat → asmp_param_struct × Int :=
  store_one (fun p v => { p with max_cpus := v })

/-- The instance `store_one(cpufreq_up, cpufreq_up)`. -/
def store_cpufreq_up : asmp_param_struct → Option Nat → Nat → asmp_param_struct × Int :=
  store_one (fun p v => { p with cpufreq_up := v })

/-- The instance `store_one(cpufreq_down, cpufreq_down)`. -/
def store_cpufreq_down : asmp_param_struct → Option Nat → Nat → asmp_param_struct × Int :=
  store_one (fun p v => { p with cpufreq_down := v })

/-- The instance `store_one(cycle_up, cycle_up)`. -/
def store_cycle_up : asmp_param_struct → Option Nat → Nat → asmp_param_struct × Int :=
  store_one (fun p v => { p with cycle_up := v })

/-- The instance `store_one(cycle_down, cycle_down)`. -/
def store_cycle_down : asmp_param_struct → Option Nat → Nat → asmp_param_struct × Int :=
  store_one (fun p v => { p with cycle_down := v })

/-- Readings with a reference maximum of 50000000 and every unit at 600000. -/
def fast_clock_fq : cpufreq :=
  { policy_max := some 50000000, quick_get := fun _ => 600000 }

/-- The unit a hotplug request names. -/
def hotplug_call.cpu : hotplug_call → Nat
  | hotplug_call.cpu_up c => c
  | hotplug_call.cpu_down c => c

/-- Invariant of the restore sweep after the identifiers below `k`, about its
requests: the units at or above `k` are as in the starting mask `m`, every
request so far is a `cpu_up` of a present unit below `k` that was offline in
`m`, and the requests are in increasing identifier order. -/
def restore_calls_inv (hw : platform) (m : cpumask) (k : Nat) (a : sweep) : Prop :=
  (∀ c, k ≤ c → a.online c = m c) ∧
  (∀ call, call ∈ a.calls → ∃ c, call = hotplug_call.cpu_up c ∧ c < k ∧
    hw.cpu_present_mask c = true ∧ m c = false) ∧
  a.calls.Pairwise (fun x y => x.cpu < y.cpu)

/-- Invariant of the restore sweep after the identifiers below `k`, when every
`cpu_up` succeeds: the online count has reached `max_cpus` if the loop has left
through `break`, and otherwise every present unit below `k` is online. -/
def restore_reach_inv (hw : platform) (max_cpus : Nat) (k : Nat) (a : sweep) : Prop :=
  (a.stop = true → max_cpus ≤ num_online_cpus hw a.online) ∧
  (a.stop = false → ∀ c, c < k → hw.cpu_present_mask c = true → a.online c = true)

/-- A machine with four possible units of which unit 1 is not present; every
hotplug request on a present unit succeeds. -/
def hw_sparse : platform :=
  { nr_cpu_ids := 4, cpu_present_mask := fun c => decide (c < 4) && decide (c ≠ 1),
    cpu_up_ok := fun _ => true, cpu_down_ok := fun _ => true,
    msecs_to_jiffies := fun m => (m + 9) / 10 }

/-- A state with `max_cpus = 4`, only unit 0 online and counter 0. -/
def lone_state : asmp_state :=
  mk_state { asmp_param_init with max_cpus := 4 } 0 (first_cpus 1)

/-- A machine with four present units on which the `cpu_up` of unit 2 does not
go through. -/
def hw_flaky : platform :=
  { nr_cpu_ids := 4, cpu_present_mask := fun c => decide (c < 4),
    cpu_up_ok := fun c => decide (c ≠ 2), cpu_down_ok := fun _ => true,
    msecs_to_jiffies := fun m => (m + 9) / 10 }

/-- A state with `max_cpus = 4`, units 0 and 1 online, counter 0, no tick
pending. -/
def half_state : asmp_state :=
  mk_state { asmp_param_init with max_cpus := 4 } 0 (first_cpus 2)

/-- Invariant of the scan loop after the identifiers below `k`, about the
victim: once a non-primary unit has been recorded in `slow_cpu`, every online
unit visited after it has a rate strictly above `slow_rate`. -/
def scan_victim_inv (fq : cpufreq) (online : cpumask) (k : Nat) (v : scan) : Prop :=
  v.slow_cpu ≠ 0 →
    ∀ x, v.slow_cpu < x → x < k → online x = true → v.slow_rate < u32 (fq.quick_get x)

/-- Coherence of the interval cache: `delay_jif` is the jiffies value of the
cached interval `delay0`.  The two variables start at 0 and are only written
together (lines 75-76). -/
def delay_cache_ok (hw : platform) (s : asmp_state) : Prop :=
  s.delay_jif = hw.msecs_to_jiffies s.delay0

instance (hw : platform) (s : asmp_state) : Decidable (delay_cache_ok hw s) := by
  unfold delay_cache_ok; infer_instance

/-- Readings with three idle units of different rates: maximum rate 1000000,
unit 0 at 300000, units 1 and 3 at 100000, unit 2 at 200000. -/
def idle_fq : cpufreq :=
  { policy_max := some 1000000,
    quick_get := fun c => if c = 0 then 300000 else if c = 2 then 200000 else 100000 }

/-- A state with the default tunables, four units online and counter 0. -/
def full_state : asmp_state :=
  mk_state { asmp_param_init with max_cpus := 4 } 0 (first_cpus 4)

/-- A state whose configured interval was changed to 250 ms after the tick
cached 100 ms (10 jiffies); units 0 and 1 online, the tick dispatched. -/
def retuned_state : asmp_state :=
  { default_state with asmp_param := { asmp_param_init with delay := 250 } }

/-- Readings when `cpufreq_cpu_get(0)` returns NULL; every unit reports rate 0. -/
def no_policy_fq : cpufreq :=
  { policy_max := none, quick_get := fun _ => 0 }

/-- The same machine at a later handler run: the number of units, the present
mask and the jiffies conversion are unchanged, while the outcome of a hotplug
request on a given unit may differ from the earlier run. -/
def rerun (hw : platform) (cpu_up_ok cpu_down_ok : Nat → Bool) : platform :=
  { hw with cpu_up_ok := cpu_up_ok, cpu_down_ok := cpu_down_ok }

/-- A machine with four present units that refuses the `cpu_up` of unit 2 and
the `cpu_down` of unit 1. -/
def hw_refusing : platform :=
  { nr_cpu_ids := 4, cpu_present_mask := fun c => decide (c < 4),
    cpu_up_ok := fun c => decide (c ≠ 2), cpu_down_ok := fun c => decide (c ≠ 1),
    msecs_to_jiffies := fun m => (m + 9) / 10 }

end autosmp

/-!
Charger control (drivers/power/qpnp_charger_control.c): the two tunables and
their range checks.  C `int` values are integers.
-/

namespace qpnp_charger_control

/-- The macro `MAX_CUSTOM_CURRENT`. -/
def MAX_CUSTOM_CURRENT : Int := 1250

/-- The macro `MIN_CUSTOM_CURRENT`. -/
def MIN_CUSTOM_CURRENT : Int := 500

/-- The macro `DEFAULT_SWITCH`. -/
def DEFAULT_SWITCH : Int := 0

/-- The macro `DEFAULT_CURRENT`. -/
def DEFAULT_CURRENT : Int := 750

/-- The driver's two global tunables. -/
structure tunables where
  master_switch : Int
  custom_current : Int
deriving DecidableEq, Repr

/-- The static initialisers of the tunables. -/
def tunables_init : tunables :=
  { master_switch := DEFAULT_SWITCH, custom_current := DEFAULT_CURRENT }

/-- The function `check_switch_validity`: 0 for a proper switch value, else 1. -/
def check_switch_validity (input_switch : Int) : Int :=
  if input_switch = 0 ∨ input_switch = 1 then 0 else 1

/-- The function `check_current_limits`: 0 within the safe limits, else 1. -/
def check_current_limits (input_current : Int) : Int :=
  if input_current ≥ MIN_CUSTOM_CURRENT ∧ input_current ≤ MAX_CUSTOM_CURRENT then 0 else 1

/-- The sysfs store `master_switch_store`; `val` is the integer `sscanf`
converted.  The result is the new tunables and the returned byte count. -/
def master_switch_store (t : tunables) (val : Int) (count : Nat) : tunables × Int :=
  let rc := check_switch_validity val
  if rc ≠ 0 then ({ t with master_switch := DEFAULT_SWITCH }, (count : Int))
  else ({ t with master_switch := val }, (count : Int))

/-- The sysfs store `custom_current_store`; `new_current` is the integer
`sscanf` converted.  The result is the new tunables and the returned byte
count. -/
def custom_current_store (t : tunables) (new_current : Int) (count : Nat) : tunables × Int :=
  let rc := check_current_limits new_current
  if rc ≠ 0 then ({ t with custom_current := DEFAULT_CURRENT }, (count : Int))
  else ({ t with custom_current := new_current }, (count : Int))

end qpnp_charger_control

/-!
Headset switch (drivers/misc/alsa-to-h2w-headset.c): the mapping of the input
switch bitmask onto the H2W states and the two sysfs printers.
-/

namespace alsa_to_h2w

/-- The macro `H2W_HS_NO_DEVICE`. -/
def H2W_HS_NO_DEVICE : Int := 0

/-- The macro `H2W_HS_HEADSET`. -/
def H2W_HS_HEADSET : Int := 1

/-- The macro `H2W_HS_HEADPHONE`. -/
def H2W_HS_HEADPHONE : Int := 2

/-- The error number `EINVAL`. -/
def EINVAL : Int := 22

/-- The string `name_headsets_with_mic`. -/
def name_headsets_with_mic : String := "Headset with a mic"

/-- The string `name_headsets_no_mic`. -/
def name_headsets_no_mic : String := "Headphone"

/-- The string `name_headsets_pull_out`. -/
def name_headsets_pull_out : String := "No Device"

/-- The string `state_headsets_with_mic`. -/
def state_headsets_with_mic : String := "1"

/-- The string `state_headsets_no_mic`. -/
def state_headsets_no_mic : String := "2"

/-- The string `state_headsets_pull_out`. -/
def state_headsets_pull_out : String := "0"

/-- The function `switch_to_h2w` (lines 54-63).  The switch codes
`SW_HEADPHONE_INSERT` and `SW_MICROPHONE_INSERT` come from linux/input.h, which
is not among the sources, and are parameters. -/
def switch_to_h2w (SW_HEADPHONE_INSERT SW_MICROPHONE_INSERT : Nat) (switch_state : Nat) : Int :=
  if switch_state &&& (1 <<< SW_HEADPHONE_INSERT) ≠ 0 then
    if switch_state &&& (1 <<< SW_MICROPHONE_INSERT) ≠ 0 then
      H2W_HS_HEADSET
    else
      H2W_HS_HEADPHONE
  else H2W_HS_NO_DEVICE

/-- What a sysfs printer does: the value it returns and the text it leaves in
the buffer, if any. -/
structure printed where
  ret : Int
  text : Option String
deriving DecidableEq, Repr

/-- The call `snprintf(buf, size, "%s\n", str)` of the two printers: the buffer
receives at most `size - 1` characters of the line and the call returns the
length of the whole line. -/
def snprintf_line (size : Nat) (str : String) : printed :=
  { ret := ((str ++ "\n").length : Int), text := some ((str ++ "\n").take (size - 1)) }

/-- The function `headset_print_name` (lines 134-160).  `state` is what
`switch_get_state(sdev)` returns, `buf` tells whether the buffer pointer is
non-NULL, and `sizeof_name` is the size of a `const char *`. -/
def headset_print_name (sizeof_name : Nat) (state : Int) (buf : Bool) : printed :=
  if !buf then { ret := -EINVAL, text := none }
  else
    let name : Option String :=
      if state = 0 then some name_headsets_pull_out
      else if state = 1 then some name_headsets_with_mic
      else if state = 2 then some name_headsets_no_mic
      else none
    match name with
    | some n => snprintf_line (sizeof_name + 2) n
    | none => { ret := -EINVAL, text := none }

/-- The function `headset_print_state` (lines 162-188), with the same
parameters as `headset_print_name`. -/
def headset_print_state (sizeof_state : Nat) (state : Int) (buf : Bool) : printed :=
  if !buf then { ret := -EINVAL, text := none }
  else
    let st : Option String :=
      if state = 0 then some state_headsets_pull_out
      else if state = 1 then some state_headsets_with_mic
      else if state = 2 then some state_headsets_no_mic
      else none
    match st with
    | some n => snprintf_line (sizeof_state + 2) n
    | none => { ret := -EINVAL, text := none }

end alsa_to_h2w

namespace autosmp

/-! ## Counting bits of a cpumask -/

theorem cpumask_weight_succ (n : Nat) (m : cpumask) :
    cpumask_weight (n + 1) m = cpumask_weight n m + (if m n then 1 else 0) := by
  simp [cpumask_weight, List.range_succ, List.countP_append, List.countP_cons]

theorem cpumask_weight_congr {n : Nat} {a b : cpumask} (h : ∀ c, c < n → a c = b c) :
    cpumask_weight n a = cpumask_weight n b := by
  induction n with
  | zero => simp [cpumask_weight]
  | succ k ih =>
    rw [cpumask_weight_succ, cpumask_weight_succ, h k (Nat.lt_succ_self k),
      ih (fun c hc => h c (Nat.lt_succ_of_lt hc))]

theorem cpumask_weight_mono {n : Nat} {a b : cpumask}
    (h : ∀ c, c < n → a c = true → b c = true) :
    cpumask_weight n a ≤ cpumask_weight n b := by
  induction n with
  | zero => simp [cpumask_weight]
  | succ k ih =>
    rw [cpumask_weight_succ, cpumask_weight_succ]
    have h1 := ih (fun c hc => h c (Nat.lt_succ_of_lt hc))
    have h2 := h k (Nat.lt_succ_self k)
    by_cases ha : a k = true
    · simp [ha, h2 ha]; exact h1
    · simp [ha]; split <;> omega

theorem cpumask_weight_le (n : Nat) (m : cpumask) : cpumask_weight n m ≤ n := by
  induction n with
  | zero => simp [cpumask_weight]
  | succ k ih => rw [cpumask_weight_succ]; split <;> omega

theorem cpumask_weight_set {n c : Nat} {m : cpumask} (hc : c < n) (h : m c = false) :
    cpumask_weight n (cpumask_set_cpu c m) = cpumask_weight n m + 1 := by
  induction n with
  | zero => omega
  | succ k ih =>
    rw [cpumask_weight_succ, cpumask_weight_succ]
    by_cases hk : c = k
    · subst hk
      have e : cpumask_weight c (cpumask_set_cpu c m) = cpumask_weight c m :=
        cpumask_weight_congr (fun x hx => by simp [cpumask_set_cpu, Nat.ne_of_lt hx])
      simp [e, h, cpumask_set_cpu]
    · have hlt : c < k := by omega
      have e : cpumask_set_cpu c m k = m k := by
        simp [cpumask_set_cpu, Ne.symm hk]
      rw [ih hlt, e]; omega

theorem cpumask_weight_clear {n c : Nat} {m : cpumask} (hc : c < n) (h : m c = true) :
    cpumask_weight n (cpumask_clear_cpu c m) + 1 = cpumask_weight n m := by
  induction n with
  | zero => omega
  | succ k ih =>
    rw [cpumask_weight_succ, cpumask_weight_succ]
    by_cases hk : c = k
    · subst hk
      have e : cpumask_weight c (cpumask_clear_cpu c m) = cpumask_weight c m :=
        cpumask_weight_congr (fun x hx => by simp [cpumask_clear_cpu, Nat.ne_of_lt hx])
      simp [e, h, cpumask_clear_cpu]
    · have hlt : c < k := by omega
      have e : cpumask_clear_cpu c m k = m k := by
        simp [cpumask_clear_cpu, Ne.symm hk]
      rw [e]; have := ih hlt; omega

/-! ## Effect of one hotplug request -/

theorem cpu_up_mono (hw : platform) (m : cpumask) (cpu x : Nat) (h : m x = true) :
    cpu_up hw m cpu x = true := by
  unfold cpu_up; split
  · simp only [cpumask_set_cpu]; split <;> simp [h]
  · exact h

theorem cpu_up_present (hw : platform) (m : cpumask) (cpu x : Nat)
    (h : cpu_up hw m cpu x = true) : m x = true ∨ (x = cpu ∧ hw.cpu_present_mask x = true) := by
  unfold cpu_up at h; split at h
  · rename_i hc
    simp only [cpumask_set_cpu] at h
    by_cases hx : x = cpu
    · subst hx; simp at hc; exact Or.inr ⟨rfl, hc.1.1.2⟩
    · simp [hx] at h; exact Or.inl h
  · exact Or.inl h

theorem cpu_up_weight (hw : platform) (m : cpumask) (cpu : Nat) :
    num_online_cpus hw m ≤ num_online_cpus hw (cpu_up hw m cpu) ∧
    num_online_cpus hw (cpu_up hw m cpu) ≤ num_online_cpus hw m + 1 := by
  unfold cpu_up num_online_cpus; split
  · rename_i hc
    simp at hc
    rw [cpumask_weight_set hc.1.1.1 hc.1.2]; omega
  · omega

theorem cpu_up_success (hw : platform) (m : cpumask) (cpu : Nat)
    (hc : cpu < hw.nr_cpu_ids) (hp : hw.cpu_present_mask cpu = true)
    (hoff : m cpu = false) (hok : hw.cpu_up_ok cpu = true) :
    cpu_up hw m cpu = cpumask_set_cpu cpu m ∧
    num_online_cpus hw (cpu_up hw m cpu) = num_online_cpus hw m + 1 := by
  have e : cpu_up hw m cpu = cpumask_set_cpu cpu m := by
    simp [cpu_up, hc, hp, hoff, hok]
  refine ⟨e, ?_⟩
  rw [e]; exact cpumask_weight_set hc hoff

theorem cpu_down_anti (hw : platform) (m : cpumask) (cpu x : Nat)
    (h : cpu_down hw m cpu x = true) : m x = true := by
  unfold cpu_down at h; split at h
  · simp only [cpumask_clear_cpu] at h
    by_cases hx : x = cpu
    · simp [hx] at h
    · simpa [hx] using h
  · exact h

theorem cpu_down_other (hw : platform) (m : cpumask) (cpu x : Nat) (hx : x ≠ cpu) :
    cpu_down hw m cpu x = m x := by
  unfold cpu_down; split
  · simp [cpumask_clear_cpu, hx]
  · rfl

theorem cpu_down_weight (hw : platform) (m : cpumask) (cpu : Nat) :
    num_online_cpus hw (cpu_down hw m cpu) ≤ num_online_cpus hw m ∧
    num_online_cpus hw m ≤ num_online_cpus hw (cpu_down hw m cpu) + 1 := by
  unfold cpu_down num_online_cpus; split
  · rename_i hc
    simp at hc
    have := cpumask_weight_clear hc.1.1 hc.1.2
    omega
  · omega

theorem cpu_down_success (hw : platform) (m : cpumask) (cpu : Nat)
    (hc : cpu < hw.nr_cpu_ids) (hon : m cpu = true) (hok : hw.cpu_down_ok cpu = true) :
    cpu_down hw m cpu = cpumask_clear_cpu cpu m := by
  simp [cpu_down, hc, hon, hok]

/-- What `cpumask_next_zero` returns when it finds a unit: an identifier above
`n` whose bit is clear, with every identifier between `n` and it set. -/
theorem cpumask_next_zero_spec (nbits n : Nat) (mask : cpumask)
    (h : cpumask_next_zero nbits n mask < nbits) :
    n < cpumask_next_zero nbits n mask ∧ mask (cpumask_next_zero nbits n mask) = false := by
  unfold cpumask_next_zero at h ⊢
  cases hf : (List.range nbits).find? (fun c => decide (n < c) && !mask c) with
  | none => simp [hf] at h
  | some c =>
    have hp := List.find?_some hf
    simp at hp
    simpa using hp

/-! ## The tick -/

/-- Every 32-bit value is at most `UINT_MAX`. -/
theorem u32_le (n : Nat) : u32 n ≤ UINT_MAX := by
  unfold u32 UINT_MAX; omega

theorem u32_of_lt {n : Nat} (h : n ≤ UINT_MAX) : u32 n = n := by
  unfold u32; unfold UINT_MAX at h; omega

/-- The three ways a tick can end: a scale-up request, a scale-down request,
or no request. -/
theorem asmp_work_fn_cases (hw : platform) (fq : cpufreq) (s : asmp_state) :
    ((asmp_work_sample hw fq s).slow_rate > (asmp_work_sample hw fq s).up_rate ∧
      (asmp_work_sample hw fq s).nr_cpu_online < s.asmp_param.max_cpus ∧
      (asmp_work_sample hw fq s).cycle ≥ s.asmp_param.cycle_up ∧
      (asmp_work_fn hw fq s).calls =
        [hotplug_call.cpu_up (cpumask_next_zero hw.nr_cpu_ids 0 s.cpu_online_mask)] ∧
      (asmp_work_fn hw fq s).st.cycle = 0 ∧
      (asmp_work_fn hw fq s).st.cpu_online_mask =
        cpu_up hw s.cpu_online_mask (cpumask_next_zero hw.nr_cpu_ids 0 s.cpu_online_mask)) ∨
    (¬ (asmp_work_sample hw fq s).slow_rate > (asmp_work_sample hw fq s).up_rate ∧
      (asmp_work_sample hw fq s).slow_cpu ≠ 0 ∧
      (asmp_work_sample hw fq s).fast_rate < (asmp_work_sample hw fq s).down_rate ∧
      (asmp_work_sample hw fq s).nr_cpu_online > s.asmp_param.min_cpus ∧
      (asmp_work_sample hw fq s).cycle ≥ s.asmp_param.cycle_down ∧
      (asmp_work_fn hw fq s).calls =
        [hotplug_call.cpu_down (asmp_work_sample hw fq s).slow_cpu] ∧
      (asmp_work_fn hw fq s).st.cycle = 0 ∧
      (asmp_work_fn hw fq s).st.cpu_online_mask =
        cpu_down hw s.cpu_online_mask (asmp_work_sample hw fq s).slow_cpu) ∨
    (((asmp_work_sample hw fq s).slow_rate > (asmp_work_sample hw fq s).up_rate →
        ¬ ((asmp_work_sample hw fq s).nr_cpu_online < s.asmp_param.max_cpus ∧
          (asmp_work_sample hw fq s).cycle ≥ s.asmp_param.cycle_up)) ∧
      (¬ (asmp_work_sample hw fq s).slow_rate > (asmp_work_sample hw fq s).up_rate →
        (asmp_work_sample hw fq s).slow_cpu ≠ 0 →
        (asmp_work_sample hw fq s).fast_rate < (asmp_work_sample hw fq s).down_rate →
        ¬ ((asmp_work_sample hw fq s).nr_cpu_online > s.asmp_param.min_cpus ∧
          (asmp_work_sample hw fq s).cycle ≥ s.asmp_param.cycle_down)) ∧
      (asmp_work_fn hw fq s).calls = [] ∧
      (asmp_work_fn hw fq s).st.cycle = (asmp_work_sample hw fq s).cycle ∧
      (asmp_work_fn hw fq s).st.cpu_online_mask = s.cpu_online_mask) := by
  by_cases h1 : (asmp_work_sample hw fq s).slow_rate > (asmp_work_sample hw fq s).up_rate
  · by_cases h2 : (asmp_work_sample hw fq s).nr_cpu_online < s.asmp_param.max_cpus ∧
        (asmp_work_sample hw fq s).cycle ≥ s.asmp_param.cycle_up
    · left
      refine ⟨h1, h2.1, h2.2, ?_, ?_, ?_⟩ <;>
        (dsimp only [asmp_work_fn]; rw [if_pos h1, if_pos h2])
    · right; right
      refine ⟨fun _ => h2, fun h => absurd h1 h, ?_, ?_, ?_⟩ <;>
        (dsimp only [asmp_work_fn]; rw [if_pos h1, if_neg h2]) <;> rfl
  · by_cases h3 : (asmp_work_sample hw fq s).slow_cpu ≠ 0 ∧
        (asmp_work_sample hw fq s).fast_rate < (asmp_work_sample hw fq s).down_rate
    · by_cases h4 : (asmp_work_sample hw fq s).nr_cpu_online > s.asmp_param.min_cpus ∧
          (asmp_work_sample hw fq s).cycle ≥ s.asmp_param.cycle_down
      · right; left
        refine ⟨h1, h3.1, h3.2, h4.1, h4.2, ?_, ?_, ?_⟩ <;>
          (dsimp only [asmp_work_fn]; rw [if_neg h1, if_pos h3, if_pos h4])
      · right; right
        refine ⟨fun h => absurd h h1, fun _ _ _ => h4, ?_, ?_, ?_⟩ <;>
          (dsimp only [asmp_work_fn]; rw [if_neg h1, if_pos h3, if_neg h4]) <;> rfl
    · right; right
      refine ⟨fun h => absurd h h1, fun _ a b => absurd ⟨a, b⟩ h3, ?_, ?_, ?_⟩ <;>
        (dsimp only [asmp_work_fn]; rw [if_neg h1, if_neg h3]) <;> rfl

theorem asmp_work_sample_cycle (hw : platform) (fq : cpufreq) (s : asmp_state) :
    (asmp_work_sample hw fq s).cycle = u32 (s.cycle + 1) := rfl

theorem asmp_work_sample_nr (hw : platform) (fq : cpufreq) (s : asmp_state) :
    (asmp_work_sample hw fq s).nr_cpu_online = num_online_cpus hw s.cpu_online_mask := rfl

/-- C1, as the claim states it, fails: in the claim's own scenario
(`cpufreq_down = 45`, maximum rate 1000000, units 0 and 1 online with fastest
rate 300000, `min_cpus = 1`, `cycle_down = 2`, counter 1 on entry) the
scale-down condition holds, the counter on entry is below `cycle_down`, and
yet the tick takes unit 1 offline and leaves the counter at 0: the counter is
incremented (line 72) before the gate reads it (line 119). -/
theorem scale_down_gate_counterexample :
    (asmp_work_sample (hw_all 2) debounce_fq (debounce_state 1)).slow_rate ≤
      (asmp_work_sample (hw_all 2) debounce_fq (debounce_state 1)).up_rate ∧
    (asmp_work_sample (hw_all 2) debounce_fq (debounce_state 1)).slow_cpu ≠ 0 ∧
    (asmp_work_sample (hw_all 2) debounce_fq (debounce_state 1)).fast_rate = 300000 ∧
    (asmp_work_sample (hw_all 2) debounce_fq (debounce_state 1)).down_rate = 450000 ∧
    num_online_cpus (hw_all 2) (debounce_state 1).cpu_online_mask = 2 ∧
    (debounce_state 1).asmp_param.min_cpus = 1 ∧
    (debounce_state 1).cycle < (debounce_state 1).asmp_param.cycle_down ∧
    (asmp_work_fn (hw_all 2) debounce_fq (debounce_state 1)).calls =
      [hotplug_call.cpu_down 1] ∧
    (asmp_work_fn (hw_all 2) debounce_fq (debounce_state 1)).st.cpu_online_mask 1 = false ∧
    num_online_cpus (hw_all 2)
      (asmp_work_fn (hw_all 2) debounce_fq (debounce_state 1)).st.cpu_online_mask = 1 ∧
    (asmp_work_fn (hw_all 2) debounce_fq (debounce_state 1)).st.cycle = 0 := by
  decide

/-- C1, amended: the debounce gate for scale-down reads the counter after the
tick's increment.  For every tick in which the scale-down condition holds
(`slow_rate ≤ up_rate`, a non-primary slowest unit exists,
`fast_rate < down_rate`) and the online count exceeds `min_cpus`, if the
counter on entry plus one is less than `cycle_down` (an `unsigned int`) then
the tick issues no hotplug request, leaves the online mask as it was, and the
counter after the tick is the entry value plus one. -/
theorem scale_down_gate (hw : platform) (fq : cpufreq) (s : asmp_state)
    (hslow : (asmp_work_sample hw fq s).slow_rate ≤ (asmp_work_sample hw fq s).up_rate)
    (hcpu : (asmp_work_sample hw fq s).slow_cpu ≠ 0)
    (hfast : (asmp_work_sample hw fq s).fast_rate < (asmp_work_sample hw fq s).down_rate)
    (hcount : num_online_cpus hw s.cpu_online_mask > s.asmp_param.min_cpus)
    (hgate : s.cycle + 1 < s.asmp_param.cycle_down)
    (hu32 : s.asmp_param.cycle_down ≤ UINT_MAX) :
    (asmp_work_fn hw fq s).calls = [] ∧
    (asmp_work_fn hw fq s).st.cpu_online_mask = s.cpu_online_mask ∧
    (asmp_work_fn hw fq s).st.cycle = s.cycle + 1 := by
  have hc : (asmp_work_sample hw fq s).cycle = s.cycle + 1 := by
    rw [asmp_work_sample_cycle]; exact u32_of_lt (by omega)
  rcases asmp_work_fn_cases hw fq s with h | h | h
  · exact absurd h.1 (Nat.not_lt.mpr hslow)
  · have := h.2.2.2.2.1
    omega
  · exact ⟨h.2.2.1, h.2.2.2.2, by rw [h.2.2.2.1, hc]⟩

/-- Witness for `scale_down_gate`: the debounce scenario entered with counter 0
holds and leaves the counter at 1. -/
theorem scale_down_gate_witness :
    (asmp_work_sample (hw_all 2) debounce_fq (debounce_state 0)).slow_rate ≤
      (asmp_work_sample (hw_all 2) debounce_fq (debounce_state 0)).up_rate ∧
    (debounce_state 0).cycle + 1 < (debounce_state 0).asmp_param.cycle_down ∧
    (asmp_work_fn (hw_all 2) debounce_fq (debounce_state 0)).calls = [] ∧
    (asmp_work_fn (hw_all 2) debounce_fq (debounce_state 0)).st.cpu_online_mask =
      (debounce_state 0).cpu_online_mask ∧
    (asmp_work_fn (hw_all 2) debounce_fq (debounce_state 0)).st.cycle = 0 + 1 :=
  ⟨by decide, by decide,
    scale_down_gate (hw_all 2) debounce_fq (debounce_state 0) (by decide) (by decide)
      (by decide) (by decide) (by decide) (by decide)⟩

/-- C2, as the claim states it, fails at two inputs.  First, in the claim's
scenario entered with counter 2^32 - 1 (which is at least `cycle_up = 1`) the
increment wraps to 0, the gate `cycle >= cycle_up` fails and no unit is brought
online although unit 2 is offline, present and its `cpu_up` would succeed.
Second, on a machine whose unit 2 is not present while unit 3 is offline,
present and can be brought online, the tick passes unit 2 to `cpu_up` (the
first clear bit of the online mask) and the online count stays at 2. -/
theorem scale_up_counterexample :
    ((asmp_work_sample (hw_all 3) saturated_fq (saturated_state 4294967295)).slow_rate >
        (asmp_work_sample (hw_all 3) saturated_fq (saturated_state 4294967295)).up_rate ∧
      num_online_cpus (hw_all 3) (saturated_state 4294967295).cpu_online_mask <
        (saturated_state 4294967295).asmp_param.max_cpus ∧
      (saturated_state 4294967295).cycle ≥ (saturated_state 4294967295).asmp_param.cycle_up ∧
      (saturated_state 4294967295).cpu_online_mask 2 = false ∧
      (hw_all 3).cpu_present_mask 2 = true ∧ (hw_all 3).cpu_up_ok 2 = true ∧
      (asmp_work_fn (hw_all 3) saturated_fq (saturated_state 4294967295)).calls = [] ∧
      num_online_cpus (hw_all 3)
        (asmp_work_fn (hw_all 3) saturated_fq
          (saturated_state 4294967295)).st.cpu_online_mask = 2) ∧
    ((asmp_work_sample hw_hole saturated_fq (saturated_state 1)).slow_rate >
        (asmp_work_sample hw_hole saturated_fq (saturated_state 1)).up_rate ∧
      num_online_cpus hw_hole (saturated_state 1).cpu_online_mask <
        (saturated_state 1).asmp_param.max_cpus ∧
      (saturated_state 1).cycle ≥ (saturated_state 1).asmp_param.cycle_up ∧
      (saturated_state 1).cpu_online_mask 3 = false ∧
      hw_hole.cpu_present_mask 3 = true ∧ hw_hole.cpu_up_ok 3 = true ∧
      (asmp_work_fn hw_hole saturated_fq (saturated_state 1)).calls =
        [hotplug_call.cpu_up 2] ∧
      num_online_cpus hw_hole
        (asmp_work_fn hw_hole saturated_fq (saturated_state 1)).st.cpu_online_mask = 2) := by
  decide

/-- C2, amended: for every tick in which every online unit's rate exceeds
`up_rate` (`slow_rate > up_rate`), the online count is below `max_cpus`, the
counter on entry is at least `cycle_up` and below 2^32 - 1 (so that the
increment does not wrap), and the unit the tick selects, the lowest identifier
above 0 that is offline, is a present unit whose `cpu_up` succeeds, the tick
brings exactly that unit online (the online count grows by exactly 1 and no
unit goes offline) and leaves the counter at 0. -/
theorem scale_up_fires (hw : platform) (fq : cpufreq) (s : asmp_state)
    (hsat : (asmp_work_sample hw fq s).slow_rate > (asmp_work_sample hw fq s).up_rate)
    (hroom : num_online_cpus hw s.cpu_online_mask < s.asmp_param.max_cpus)
    (hcyc : s.cycle ≥ s.asmp_param.cycle_up)
    (hwrap : s.cycle < UINT_MAX)
    (hsel : cpumask_next_zero hw.nr_cpu_ids 0 s.cpu_online_mask < hw.nr_cpu_ids)
    (hpres : hw.cpu_present_mask
      (cpumask_next_zero hw.nr_cpu_ids 0 s.cpu_online_mask) = true)
    (hok : hw.cpu_up_ok (cpumask_next_zero hw.nr_cpu_ids 0 s.cpu_online_mask) = true) :
    (asmp_work_fn hw fq s).calls =
      [hotplug_call.cpu_up (cpumask_next_zero hw.nr_cpu_ids 0 s.cpu_online_mask)] ∧
    (asmp_work_fn hw fq s).st.cpu_online_mask
      (cpumask_next_zero hw.nr_cpu_ids 0 s.cpu_online_mask) = true ∧
    num_online_cpus hw (asmp_work_fn hw fq s).st.cpu_online_mask =
      num_online_cpus hw s.cpu_online_mask + 1 ∧
    (∀ x, s.cpu_online_mask x = true →
      (asmp_work_fn hw fq s).st.cpu_online_mask x = true) ∧
    (asmp_work_fn hw fq s).st.cycle = 0 := by
  have hc : (asmp_work_sample hw fq s).cycle = s.cycle + 1 := by
    rw [asmp_work_sample_cycle]; exact u32_of_lt (by omega)
  have hoff := (cpumask_next_zero_spec hw.nr_cpu_ids 0 s.cpu_online_mask hsel).2
  have hup := cpu_up_success hw s.cpu_online_mask _ hsel hpres hoff hok
  rcases asmp_work_fn_cases hw fq s with h | h | h
  · refine ⟨h.2.2.2.1, ?_, ?_, ?_, h.2.2.2.2.1⟩
    · rw [h.2.2.2.2.2, hup.1]; simp [cpumask_set_cpu]
    · rw [h.2.2.2.2.2]; exact hup.2
    · intro x hx; rw [h.2.2.2.2.2]; exact cpu_up_mono hw _ _ x hx
  · exact absurd hsat h.1
  · have := h.1 hsat
    rw [asmp_work_sample_nr, hc] at this
    exact absurd ⟨hroom, by omega⟩ this

/-- Witness for `scale_up_fires`: the claim's scenario (maximum rate 1000000,
`cpufreq_up = 90`, units 0 and 1 online at 950000, `max_cpus = 3`,
`cycle_up = 1`, counter 1) brings unit 2 online: online count 3, counter 0. -/
theorem scale_up_fires_witness :
    (asmp_work_sample (hw_all 3) saturated_fq (saturated_state 1)).slow_rate >
      (asmp_work_sample (hw_all 3) saturated_fq (saturated_state 1)).up_rate ∧
    num_online_cpus (hw_all 3) (saturated_state 1).cpu_online_mask = 2 ∧
    cpumask_next_zero (hw_all 3).nr_cpu_ids 0 (saturated_state 1).cpu_online_mask = 2 ∧
    num_online_cpus (hw_all 3)
      (asmp_work_fn (hw_all 3) saturated_fq (saturated_state 1)).st.cpu_online_mask =
        num_online_cpus (hw_all 3) (saturated_state 1).cpu_online_mask + 1 ∧
    (asmp_work_fn (hw_all 3) saturated_fq (saturated_state 1)).st.cycle = 0 :=
  ⟨by decide, by decide, by decide,
    (scale_up_fires (hw_all 3) saturated_fq (saturated_state 1) (by decide) (by decide)
      (by decide) (by decide) (by decide) (by decide) (by decide)).2.2.1,
    (scale_up_fires (hw_all 3) saturated_fq (saturated_state 1) (by decide) (by decide)
      (by decide) (by decide) (by decide) (by decide) (by decide)).2.2.2.2⟩

/-- C3: for every state and every configuration, a tick does not bring a unit
online when the online count it samples equals or exceeds `max_cpus` (it issues
no `cpu_up` and no offline unit becomes online), and does not take a unit
offline when the online count equals or is below `min_cpus` (it issues no
`cpu_down` and every online unit stays online). -/
theorem scale_respects_bounds (hw : platform) (fq : cpufreq) (s : asmp_state) :
    (s.asmp_param.max_cpus ≤ num_online_cpus hw s.cpu_online_mask →
      (∀ c, hotplug_call.cpu_up c ∉ (asmp_work_fn hw fq s).calls) ∧
      (∀ x, (asmp_work_fn hw fq s).st.cpu_online_mask x = true →
        s.cpu_online_mask x = true)) ∧
    (num_online_cpus hw s.cpu_online_mask ≤ s.asmp_param.min_cpus →
      (∀ c, hotplug_call.cpu_down c ∉ (asmp_work_fn hw fq s).calls) ∧
      (∀ x, s.cpu_online_mask x = true →
        (asmp_work_fn hw fq s).st.cpu_online_mask x = true)) := by
  constructor
  · intro hmax
    rcases asmp_work_fn_cases hw fq s with h | h | h
    · have := h.2.1
      rw [asmp_work_sample_nr] at this
      omega
    · refine ⟨fun c hc => ?_, fun x hx => ?_⟩
      · rw [h.2.2.2.2.2.1] at hc; simp at hc
      · rw [h.2.2.2.2.2.2.2] at hx; exact cpu_down_anti hw _ _ x hx
    · refine ⟨fun c hc => ?_, fun x hx => ?_⟩
      · rw [h.2.2.1] at hc; simp at hc
      · rw [h.2.2.2.2] at hx; exact hx
  · intro hmin
    rcases asmp_work_fn_cases hw fq s with h | h | h
    · refine ⟨fun c hc => ?_, fun x hx => ?_⟩
      · rw [h.2.2.2.1] at hc; simp at hc
      · rw [h.2.2.2.2.2]; exact cpu_up_mono hw _ _ x hx
    · have := h.2.2.2.1
      rw [asmp_work_sample_nr] at this
      omega
    · refine ⟨fun c hc => ?_, fun x hx => ?_⟩
      · rw [h.2.2.1] at hc; simp at hc
      · rw [h.2.2.2.2]; exact hx

/-- Witness for `scale_respects_bounds`: with `min_cpus = max_cpus = 2` and two
units online, neither a saturated nor an idle sample moves a unit. -/
theorem scale_respects_bounds_witness :
    pinned_state.asmp_param.max_cpus ≤ num_online_cpus (hw_all 4) pinned_state.cpu_online_mask ∧
    num_online_cpus (hw_all 4) pinned_state.cpu_online_mask ≤ pinned_state.asmp_param.min_cpus ∧
    (∀ c, hotplug_call.cpu_up c ∉ (asmp_work_fn (hw_all 4) saturated_fq pinned_state).calls) ∧
    (∀ c, hotplug_call.cpu_down c ∉ (asmp_work_fn (hw_all 4) debounce_fq pinned_state).calls) :=
  ⟨by decide, by decide,
    ((scale_respects_bounds (hw_all 4) saturated_fq pinned_state).1 (by decide)).1,
    ((scale_respects_bounds (hw_all 4) debounce_fq pinned_state).2 (by decide)).1⟩

/-- C4: bounds invariant of the tick.  For every valid configuration
(`1 ≤ min_cpus ≤ max_cpus ≤ nr_cpu_ids`) and every state whose online count
lies between `min_cpus` and `max_cpus`, the online count after a tick lies
between `min_cpus` and `max_cpus` too, whatever the sampled rates, the cycle
counter and the outcome of the hotplug request are. -/
theorem tick_keeps_bounds (hw : platform) (fq : cpufreq) (s : asmp_state)
    (hvalid : valid_config s.asmp_param hw.nr_cpu_ids)
    (hlo : s.asmp_param.min_cpus ≤ num_online_cpus hw s.cpu_online_mask)
    (hhi : num_online_cpus hw s.cpu_online_mask ≤ s.asmp_param.max_cpus) :
    s.asmp_param.min_cpus ≤ num_online_cpus hw (asmp_work_fn hw fq s).st.cpu_online_mask ∧
    num_online_cpus hw (asmp_work_fn hw fq s).st.cpu_online_mask ≤ s.asmp_param.max_cpus := by
  rcases asmp_work_fn_cases hw fq s with h | h | h
  · have h1 := h.2.1
    rw [asmp_work_sample_nr] at h1
    rw [h.2.2.2.2.2]
    have := cpu_up_weight hw s.cpu_online_mask
      (cpumask_next_zero hw.nr_cpu_ids 0 s.cpu_online_mask)
    omega
  · have h1 := h.2.2.2.1
    rw [asmp_work_sample_nr] at h1
    rw [h.2.2.2.2.2.2.2]
    have := cpu_down_weight hw s.cpu_online_mask (asmp_work_sample hw fq s).slow_cpu
    omega
  · rw [h.2.2.2.2]; exact ⟨hlo, hhi⟩

/-- Witness for `tick_keeps_bounds`: the scale-up scenario starts with 2 online
units between `min_cpus = 1` and `max_cpus = 3` and ends within the bounds. -/
theorem tick_keeps_bounds_witness :
    valid_config (saturated_state 1).asmp_param (hw_all 3).nr_cpu_ids ∧
    (saturated_state 1).asmp_param.min_cpus ≤
      num_online_cpus (hw_all 3)
        (asmp_work_fn (hw_all 3) saturated_fq (saturated_state 1)).st.cpu_online_mask ∧
    num_online_cpus (hw_all 3)
        (asmp_work_fn (hw_all 3) saturated_fq (saturated_state 1)).st.cpu_online_mask ≤
      (saturated_state 1).asmp_param.max_cpus :=
  ⟨by decide,
    tick_keeps_bounds (hw_all 3) saturated_fq (saturated_state 1) (by decide) (by decide)
      (by decide)⟩

/-- C5, as the claim states it, fails when the 32-bit counter is 2^32 - 1 on
entry: with a load between the two thresholds the tick issues no hotplug
request, yet the increment wraps and the counter after the tick is 0, which is
neither greater than the entry value nor a sign of an applied action. -/
theorem cycle_counter_counterexample :
    (debounce_state 4294967295).cycle = 4294967295 ∧
    (asmp_work_fn (hw_all 2) midband_fq (debounce_state 4294967295)).calls = [] ∧
    (asmp_work_fn (hw_all 2) midband_fq (debounce_state 4294967295)).st.cycle = 0 ∧
    ¬ ((asmp_work_fn (hw_all 2) midband_fq (debounce_state 4294967295)).st.cycle >
      (debounce_state 4294967295).cycle) := by
  decide

/-- C5, amended: for every tick, the counter after the tick is 0 when the tick
issued a hotplug request (`cpu_up` or `cpu_down`) and the entry value plus one
modulo 2^32 when it issued none; so for every entry value below 2^32 - 1 the
counter after the tick is 0 if and only if the tick issued a request, and on
every tick without a request it is greater than on entry by exactly 1. -/
theorem cycle_counter_reset (hw : platform) (fq : cpufreq) (s : asmp_state) :
    ((asmp_work_fn hw fq s).calls ≠ [] → (asmp_work_fn hw fq s).st.cycle = 0) ∧
    ((asmp_work_fn hw fq s).calls = [] →
      (asmp_work_fn hw fq s).st.cycle = (s.cycle + 1) % 4294967296) ∧
    (s.cycle < UINT_MAX →
      ((asmp_work_fn hw fq s).st.cycle = 0 ↔ (asmp_work_fn hw fq s).calls ≠ []) ∧
      ((asmp_work_fn hw fq s).calls = [] →
        (asmp_work_fn hw fq s).st.cycle = s.cycle + 1 ∧
        (asmp_work_fn hw fq s).st.cycle > s.cycle)) := by
  have hc : (asmp_work_sample hw fq s).cycle = (s.cycle + 1) % 4294967296 := rfl
  rcases asmp_work_fn_cases hw fq s with h | h | h
  · have hcalls : (asmp_work_fn hw fq s).calls ≠ [] := by rw [h.2.2.2.1]; simp
    have h0 := h.2.2.2.2.1
    exact ⟨fun _ => h0, fun e => absurd e hcalls,
      fun _ => ⟨⟨fun _ => hcalls, fun _ => h0⟩, fun e => absurd e hcalls⟩⟩
  · have hcalls : (asmp_work_fn hw fq s).calls ≠ [] := by rw [h.2.2.2.2.2.1]; simp
    have h0 := h.2.2.2.2.2.2.1
    exact ⟨fun _ => h0, fun e => absurd e hcalls,
      fun _ => ⟨⟨fun _ => hcalls, fun _ => h0⟩, fun e => absurd e hcalls⟩⟩
  · have hcalls := h.2.2.1
    have hcy : (asmp_work_fn hw fq s).st.cycle = (s.cycle + 1) % 4294967296 := by
      rw [h.2.2.2.1, hc]
    refine ⟨fun e => absurd hcalls e, fun _ => hcy, fun hlt => ?_⟩
    unfold UINT_MAX at hlt
    have e1 : (s.cycle + 1) % 4294967296 = s.cycle + 1 := by omega
    refine ⟨⟨fun e => ?_, fun e => absurd hcalls e⟩, fun _ => ?_⟩
    · rw [hcy, e1] at e; omega
    · rw [hcy, e1]; omega

/-- Witness for `cycle_counter_reset`: the debounce scenario entered with
counter 0 issues no request and leaves the counter at 1. -/
theorem cycle_counter_reset_witness :
    (debounce_state 0).cycle < UINT_MAX ∧
    (asmp_work_fn (hw_all 2) debounce_fq (debounce_state 0)).calls = [] ∧
    (asmp_work_fn (hw_all 2) debounce_fq (debounce_state 0)).st.cycle =
      (debounce_state 0).cycle + 1 ∧
    (asmp_work_fn (hw_all 2) debounce_fq (debounce_state 0)).st.cycle >
      (debounce_state 0).cycle :=
  ⟨by decide, by decide,
    ((cycle_counter_reset (hw_all 2) debounce_fq (debounce_state 0)).2.2 (by decide)).2
      (by decide)⟩

/-- C6, the code at the failing input: with the default tunables, maximum rate
1000000 (so `down_rate = 450000`), unit 0 at 300000 and unit 1 at 800000, the
scan leaves `fast_rate` at 300000 (unit 1 only updates `slow_rate`, line 98,
and never reaches the `else if` of line 101), and the tick takes unit 1
offline although its sampled rate 800000 is not below `down_rate`. -/
theorem scale_down_with_busy_unit :
    default_state.cpu_online_mask 1 = true ∧
    u32 (outlier_fq.quick_get 1) = 800000 ∧
    (asmp_work_sample (hw_all 2) outlier_fq default_state).down_rate = 450000 ∧
    (asmp_work_sample (hw_all 2) outlier_fq default_state).fast_rate = 300000 ∧
    (asmp_work_fn (hw_all 2) outlier_fq default_state).calls = [hotplug_call.cpu_down 1] ∧
    (asmp_work_fn (hw_all 2) outlier_fq default_state).st.cpu_online_mask 1 = false := by
  decide

/-! ## The rate scan -/

theorem scan_inv_step (fq : cpufreq) (online : cpumask) (k : Nat) (v : scan)
    (h : scan_inv fq online k v) : scan_inv fq online (k + 1) (scan_step fq online v k) := by
  obtain ⟨h1, h2, h3⟩ := h
  unfold scan_step
  by_cases ho : online k = true
  · by_cases hk : k ≠ 0
    · by_cases hr : u32 (fq.quick_get k) ≤ v.slow_rate
      · simp only [ho, hk, hr, if_true, ne_eq, not_false_eq_true]
        refine ⟨u32_le _, fun x hx hx0 hxo => ?_, Or.inr ⟨hk, Nat.lt_succ_self k, ho, rfl⟩⟩
        by_cases hxk : x = k
        · subst hxk; exact Nat.le_refl _
        · exact Nat.le_trans hr (h2 x (by omega) hx0 hxo)
      · have hmono : ∀ x, x < k + 1 → x ≠ 0 → online x = true →
            v.slow_rate ≤ u32 (fq.quick_get x) := by
          intro x hx hx0 hxo
          by_cases hxk : x = k
          · subst hxk; omega
          · exact h2 x (by omega) hx0 hxo
        have h3k : (v.slow_cpu = 0 ∧ v.slow_rate = UINT_MAX) ∨
            (v.slow_cpu ≠ 0 ∧ v.slow_cpu < k + 1 ∧ online v.slow_cpu = true ∧
              v.slow_rate = u32 (fq.quick_get v.slow_cpu)) := by
          rcases h3 with h3 | h3
          · exact Or.inl h3
          · exact Or.inr ⟨h3.1, by omega, h3.2.2.1, h3.2.2.2⟩
        simp only [ho, hk, hr, if_true, if_false, ne_eq, not_false_eq_true]
        split
        · exact ⟨h1, hmono, h3k⟩
        · exact ⟨h1, hmono, h3k⟩
    · have hk0 : k = 0 := by omega
      subst hk0
      simp only [ho, if_true, ne_eq, not_true_eq_false, if_false]
      refine ⟨h1, fun x hx hx0 _ => absurd (by omega) hx0, ?_⟩
      rcases h3 with h3 | h3
      · exact Or.inl h3
      · exact Or.inr ⟨h3.1, by omega, h3.2.2.1, h3.2.2.2⟩
  · rw [if_neg ho]
    refine ⟨h1, fun x hx hx0 hxo => ?_, ?_⟩
    · by_cases hxk : x = k
      · subst hxk; exact absurd hxo ho
      · exact h2 x (by omega) hx0 hxo
    · rcases h3 with h3 | h3
      · exact Or.inl h3
      · exact Or.inr ⟨h3.1, by omega, h3.2.2.1, h3.2.2.2⟩

theorem scan_inv_range (fq : cpufreq) (online : cpumask) (r0 : Nat) (k : Nat) :
    scan_inv fq online k
      ((List.range k).foldl (scan_step fq online)
        { slow_cpu := 0, slow_rate := UINT_MAX, fast_rate := r0 }) := by
  induction k with
  | zero =>
    exact ⟨Nat.le_refl _, fun x hx => absurd hx (Nat.not_lt_zero x), Or.inl ⟨rfl, rfl⟩⟩
  | succ k ih =>
    rw [List.range_succ, List.foldl_append]
    exact scan_inv_step fq online k _ ih

/-- The `slow_rate` a tick compares against `up_rate` is the minimum of the
sampled rates of unit 0 and of the online units. -/
theorem sample_slow_rate_min (hw : platform) (fq : cpufreq) (s : asmp_state) :
    (∀ x, (x = 0 ∨ (x < hw.nr_cpu_ids ∧ s.cpu_online_mask x = true)) →
      (asmp_work_sample hw fq s).slow_rate ≤ u32 (fq.quick_get x)) ∧
    (∃ x, (x = 0 ∨ (x < hw.nr_cpu_ids ∧ s.cpu_online_mask x = true)) ∧
      (asmp_work_sample hw fq s).slow_rate = u32 (fq.quick_get x)) := by
  obtain ⟨h1, h2, h3⟩ :=
    scan_inv_range fq s.cpu_online_mask (u32 (fq.quick_get 0)) hw.nr_cpu_ids
  have e : (asmp_work_sample hw fq s).slow_rate =
      if u32 (fq.quick_get 0) <
          (scan_online hw fq s.cpu_online_mask (u32 (fq.quick_get 0))).slow_rate
      then u32 (fq.quick_get 0)
      else (scan_online hw fq s.cpu_online_mask (u32 (fq.quick_get 0))).slow_rate := rfl
  unfold scan_online at e
  rw [e]
  constructor
  · intro x hx
    by_cases hx0 : x = 0
    · subst hx0; split <;> omega
    · rcases hx with hx | hx
      · exact absurd hx hx0
      · have := h2 x hx.1 hx0 hx.2
        split <;> omega
  · split
    · exact ⟨0, Or.inl rfl, rfl⟩
    · rename_i hlt
      rcases h3 with h3 | h3
      · refine ⟨0, Or.inl rfl, ?_⟩
        have := u32_le (fq.quick_get 0)
        omega
      · exact ⟨_, Or.inr ⟨h3.2.1, h3.2.2.1⟩, h3.2.2.2⟩

/-- C7: scale-up requires every online unit to be saturated.  The `slow_rate`
the tick compares against `up_rate` is the minimum sampled rate over unit 0
and the online units; hence for every tick that issues a `cpu_up`, and for
every tick after which a unit that was offline is online, the sampled rate of
unit 0 and of every online unit is strictly above `up_rate`. -/
theorem scale_up_requires_saturation (hw : platform) (fq : cpufreq) (s : asmp_state) :
    ((∀ x, (x = 0 ∨ (x < hw.nr_cpu_ids ∧ s.cpu_online_mask x = true)) →
        (asmp_work_sample hw fq s).slow_rate ≤ u32 (fq.quick_get x)) ∧
      (∃ x, (x = 0 ∨ (x < hw.nr_cpu_ids ∧ s.cpu_online_mask x = true)) ∧
        (asmp_work_sample hw fq s).slow_rate = u32 (fq.quick_get x))) ∧
    (∀ c, hotplug_call.cpu_up c ∈ (asmp_work_fn hw fq s).calls →
      ∀ x, (x = 0 ∨ (x < hw.nr_cpu_ids ∧ s.cpu_online_mask x = true)) →
        u32 (fq.quick_get x) > (asmp_work_sample hw fq s).up_rate) ∧
    (∀ c, s.cpu_online_mask c = false →
      (asmp_work_fn hw fq s).st.cpu_online_mask c = true →
      ∀ x, (x = 0 ∨ (x < hw.nr_cpu_ids ∧ s.cpu_online_mask x = true)) →
        u32 (fq.quick_get x) > (asmp_work_sample hw fq s).up_rate) := by
  have hmin := sample_slow_rate_min hw fq s
  refine ⟨hmin, fun c hc x hx => ?_, fun c hoff hon x hx => ?_⟩
  · rcases asmp_work_fn_cases hw fq s with h | h | h
    · exact Nat.lt_of_lt_of_le h.1 (hmin.1 x hx)
    · rw [h.2.2.2.2.2.1] at hc; simp at hc
    · rw [h.2.2.1] at hc; simp at hc
  · rcases asmp_work_fn_cases hw fq s with h | h | h
    · exact Nat.lt_of_lt_of_le h.1 (hmin.1 x hx)
    · rw [h.2.2.2.2.2.2.2] at hon
      have := cpu_down_anti hw _ _ c hon
      rw [hoff] at this; exact absurd this (by simp)
    · rw [h.2.2.2.2, hoff] at hon; exact absurd hon (by simp)

/-- Witness for `scale_up_requires_saturation`: in the scale-up scenario the
tick issues `cpu_up 2` and brings unit 2 online, and the online unit 1 is
above `up_rate`. -/
theorem scale_up_requires_saturation_witness :
    hotplug_call.cpu_up 2 ∈ (asmp_work_fn (hw_all 3) saturated_fq (saturated_state 1)).calls ∧
    (saturated_state 1).cpu_online_mask 2 = false ∧
    (asmp_work_fn (hw_all 3) saturated_fq (saturated_state 1)).st.cpu_online_mask 2 = true ∧
    u32 (saturated_fq.quick_get 1) >
      (asmp_work_sample (hw_all 3) saturated_fq (saturated_state 1)).up_rate ∧
    u32 (saturated_fq.quick_get 0) >
      (asmp_work_sample (hw_all 3) saturated_fq (saturated_state 1)).up_rate :=
  ⟨by decide, by decide, by decide,
    (scale_up_requires_saturation (hw_all 3) saturated_fq (saturated_state 1)).2.1 2
      (by decide) 1 (Or.inr ⟨by decide, by decide⟩),
    (scale_up_requires_saturation (hw_all 3) saturated_fq (saturated_state 1)).2.2 2
      (by decide) (by decide) 0 (Or.inl rfl)⟩

/-! ## Hotplug sweeps -/

theorem foldl_invariant {α β : Type} (P : α → Prop) (f : α → β → α)
    (hstep : ∀ a b, P a → P (f a b)) (l : List β) (a : α) (ha : P a) :
    P (l.foldl f a) := by
  induction l generalizing a with
  | nil => exact ha
  | cons b l ih => exact ih (f a b) (hstep a b ha)

theorem range_foldl_invariant {α : Type} (P : Nat → α → Prop) (f : α → Nat → α)
    (n : Nat) (a : α) (h0 : P 0 a)
    (hstep : ∀ k x, k < n → P k x → P (k + 1) (f x k)) :
    P n ((List.range n).foldl f a) := by
  have h : ∀ k, k ≤ n → P k ((List.range k).foldl f a) := by
    intro k
    induction k with
    | zero => intro _; exact h0
    | succ k ih =>
      intro hk
      rw [List.range_succ, List.foldl_append]
      exact hstep k _ (by omega) (ih (by omega))
  exact h n (Nat.le_refl n)

/-- The suspend sweep keeps unit 0 online and never requests `cpu_down 0`. -/
theorem suspend_step_primary (hw : platform) (a : sweep) (cpu : Nat)
    (h : a.online 0 = true ∧ hotplug_call.cpu_down 0 ∉ a.calls) :
    (suspend_step hw a cpu).online 0 = true ∧
      hotplug_call.cpu_down 0 ∉ (suspend_step hw a cpu).calls := by
  unfold suspend_step
  split
  · split
    · exact h
    · rename_i hne
      refine ⟨?_, ?_⟩
      · show cpu_down hw a.online cpu 0 = true
        rw [cpu_down_other hw a.online cpu 0 (Ne.symm hne)]; exact h.1
      · show hotplug_call.cpu_down 0 ∉ a.calls ++ [hotplug_call.cpu_down cpu]
        simp only [List.mem_append, List.mem_singleton, hotplug_call.cpu_down.injEq, not_or]
        exact ⟨h.2, fun e => hne e.symm⟩
  · exact h

/-- The restore sweep keeps every online unit online and requests no
`cpu_down`. -/
theorem restore_step_monotone (hw : platform) (max_cpus : Nat) (x : Nat) (a : sweep)
    (cpu : Nat) (h : a.online x = true ∧ ∀ c, hotplug_call.cpu_down c ∉ a.calls) :
    (restore_step hw max_cpus a cpu).online x = true ∧
      ∀ c, hotplug_call.cpu_down c ∉ (restore_step hw max_cpus a cpu).calls := by
  unfold restore_step
  split
  · exact h
  · split
    · split
      · exact h
      · split
        · refine ⟨cpu_up_mono hw a.online cpu x h.1, fun c => ?_⟩
          show hotplug_call.cpu_down c ∉ a.calls ++ [hotplug_call.cpu_up cpu]
          simp only [List.mem_append, List.mem_singleton, not_or]
          exact ⟨h.2 c, fun e => by cases e⟩
        · exact h
    · exact h

theorem restore_loop_monotone (hw : platform) (max_cpus : Nat) (online : cpumask) (x : Nat)
    (h : online x = true) :
    (restore_loop hw max_cpus online).online x = true ∧
      ∀ c, hotplug_call.cpu_down c ∉ (restore_loop hw max_cpus online).calls := by
  unfold restore_loop
  exact foldl_invariant
    (fun a => a.online x = true ∧ ∀ c, hotplug_call.cpu_down c ∉ a.calls)
    (restore_step hw max_cpus) (fun a b ha => restore_step_monotone hw max_cpus x a b ha)
    (List.range hw.nr_cpu_ids) { online := online, calls := [], stop := false }
    ⟨h, fun c => List.not_mem_nil (hotplug_call.cpu_down c)⟩

/-- C8: the primary unit is never taken offline.  For every state in which
unit 0 is online, every configuration and every sample, unit 0 is still online
after a tick (`asmp_work_fn`), after a suspend (`asmp_suspend`), after a resume
(`asmp_resume`) and after the disable restore (`asmp_stop`), and none of them
issues `cpu_down` with argument 0. -/
theorem primary_unit_stays_online (hw : platform) (fq : cpufreq) (s : asmp_state)
    (h0 : s.cpu_online_mask 0 = true) :
    ((asmp_work_fn hw fq s).st.cpu_online_mask 0 = true ∧
      hotplug_call.cpu_down 0 ∉ (asmp_work_fn hw fq s).calls) ∧
    ((asmp_suspend hw s).st.cpu_online_mask 0 = true ∧
      hotplug_call.cpu_down 0 ∉ (asmp_suspend hw s).calls) ∧
    ((asmp_resume hw s).st.cpu_online_mask 0 = true ∧
      hotplug_call.cpu_down 0 ∉ (asmp_resume hw s).calls) ∧
    ((asmp_stop hw s).st.cpu_online_mask 0 = true ∧
      hotplug_call.cpu_down 0 ∉ (asmp_stop hw s).calls) := by
  refine ⟨?_, ?_, ?_, ?_⟩
  · rcases asmp_work_fn_cases hw fq s with h | h | h
    · rw [h.2.2.2.2.2, h.2.2.2.1]
      exact ⟨cpu_up_mono hw _ _ 0 h0, by simp⟩
    · rw [h.2.2.2.2.2.2.2, h.2.2.2.2.2.1]
      refine ⟨?_, ?_⟩
      · rw [cpu_down_other hw _ _ 0 (Ne.symm h.2.1)]; exact h0
      · simp only [List.mem_singleton, hotplug_call.cpu_down.injEq]
        exact fun e => h.2.1 e.symm
    · rw [h.2.2.2.2, h.2.2.1]
      exact ⟨h0, by simp⟩
  · exact foldl_invariant
      (fun a => a.online 0 = true ∧ hotplug_call.cpu_down 0 ∉ a.calls)
      (suspend_step hw) (fun a b ha => suspend_step_primary hw a b ha)
      (List.range hw.nr_cpu_ids) { online := s.cpu_online_mask, calls := [], stop := false }
      ⟨h0, List.not_mem_nil (hotplug_call.cpu_down 0)⟩
  · have := restore_loop_monotone hw s.asmp_param.max_cpus s.cpu_online_mask 0 h0
    exact ⟨this.1, this.2 0⟩
  · have := restore_loop_monotone hw s.asmp_param.max_cpus s.cpu_online_mask 0 h0
    exact ⟨this.1, this.2 0⟩

/-- Witness for `primary_unit_stays_online`: a running state on four units with
units 0, 1 and 3 online, sampled idle. -/
theorem primary_unit_stays_online_witness :
    running_state.cpu_online_mask 0 = true ∧
    (asmp_suspend (hw_all 4) running_state).calls =
      [hotplug_call.cpu_down 1, hotplug_call.cpu_down 3] ∧
    ((asmp_work_fn (hw_all 4) debounce_fq running_state).st.cpu_online_mask 0 = true ∧
      hotplug_call.cpu_down 0 ∉ (asmp_work_fn (hw_all 4) debounce_fq running_state).calls) ∧
    ((asmp_suspend (hw_all 4) running_state).st.cpu_online_mask 0 = true ∧
      hotplug_call.cpu_down 0 ∉ (asmp_suspend (hw_all 4) running_state).calls) ∧
    ((asmp_resume (hw_all 4) running_state).st.cpu_online_mask 0 = true ∧
      hotplug_call.cpu_down 0 ∉ (asmp_resume (hw_all 4) running_state).calls) ∧
    ((asmp_stop (hw_all 4) running_state).st.cpu_online_mask 0 = true ∧
      hotplug_call.cpu_down 0 ∉ (asmp_stop (hw_all 4) running_state).calls) :=
  ⟨by decide, by decide,
    primary_unit_stays_online (hw_all 4) debounce_fq running_state (by decide)⟩

theorem suspend_inv_step (hw : platform)
    (hok : ∀ c, c < hw.nr_cpu_ids → hw.cpu_down_ok c = true)
    (k : Nat) (a : sweep) (hk : k < hw.nr_cpu_ids) (h : suspend_inv k a) :
    suspend_inv (k + 1) (suspend_step hw a k) := by
  obtain ⟨h0, hoff⟩ := h
  unfold suspend_step
  by_cases ho : a.online k = true
  · rw [if_pos ho]
    by_cases hk0 : k = 0
    · rw [if_pos hk0]
      exact ⟨h0, fun c hc hlt => absurd (by omega) hc⟩
    · rw [if_neg hk0]
      have e := cpu_down_success hw a.online k hk ho (hok k hk)
      refine ⟨?_, fun c hc hlt => ?_⟩
      · show cpu_down hw a.online k 0 = true
        rw [cpu_down_other hw a.online k 0 (Ne.symm hk0)]; exact h0
      · show cpu_down hw a.online k c = false
        rw [e]
        by_cases hck : c = k
        · simp [cpumask_clear_cpu, hck]
        · simp only [cpumask_clear_cpu, hck, if_false]
          exact hoff c hc (by omega)
  · rw [if_neg ho]
    refine ⟨h0, fun c hc hlt => ?_⟩
    by_cases hck : c = k
    · subst hck; simpa using ho
    · exact hoff c hc (by omega)

/-- The mask with only unit 0 set has weight 1 on a machine with at least one
possible unit, and weight at most 1 in general. -/
theorem cpumask_weight_primary (n : Nat) :
    cpumask_weight (n + 1) (fun c => decide (c = 0)) = 1 := by
  have e : (fun c => decide (c = 0)) = cpumask_set_cpu 0 (fun _ => false) := by
    funext c; simp [cpumask_set_cpu]
  have z : cpumask_weight (n + 1) (fun _ => false) = 0 := by
    simp [cpumask_weight]
  rw [e, cpumask_weight_set (Nat.succ_pos n) rfl, z]

/-- C9: for every state in which unit 0 is online (identifier 0 is valid and
its online bit is set), after the power_off handler `asmp_suspend`, assuming
each `cpu_down` succeeds, the online set is exactly unit 0 (the online count
is 1) and no tick is pending, so none runs until a later handler queues one. -/
theorem suspend_leaves_primary_only (hw : platform) (s : asmp_state)
    (h0 : s.cpu_online_mask 0 = true) (hnr : 0 < hw.nr_cpu_ids)
    (hok : ∀ c, c < hw.nr_cpu_ids → hw.cpu_down_ok c = true) :
    (∀ c, c < hw.nr_cpu_ids → ((asmp_suspend hw s).st.cpu_online_mask c = true ↔ c = 0)) ∧
    num_online_cpus hw (asmp_suspend hw s).st.cpu_online_mask = 1 ∧
    (asmp_suspend hw s).st.asmp_work = none := by
  have hinv : suspend_inv hw.nr_cpu_ids
      ((List.range hw.nr_cpu_ids).foldl (suspend_step hw)
        { online := s.cpu_online_mask, calls := [], stop := false }) :=
    range_foldl_invariant suspend_inv (suspend_step hw) hw.nr_cpu_ids
      { online := s.cpu_online_mask, calls := [], stop := false }
      ⟨h0, fun c _ hlt => absurd hlt (Nat.not_lt_zero c)⟩
      (fun k x hk hx => suspend_inv_step hw hok k x hk hx)
  have hset : ∀ c, c < hw.nr_cpu_ids →
      ((asmp_suspend hw s).st.cpu_online_mask c = true ↔ c = 0) := by
    intro c hc
    constructor
    · intro hon
      by_contra hne
      have := hinv.2 c hne hc
      have hon2 : ((List.range hw.nr_cpu_ids).foldl (suspend_step hw)
        { online := s.cpu_online_mask, calls := [], stop := false }).online c = true := hon
      rw [this] at hon2; exact absurd hon2 (by simp)
    · intro hc0; subst hc0; exact hinv.1
  refine ⟨hset, ?_, rfl⟩
  obtain ⟨n, hn⟩ : ∃ n, hw.nr_cpu_ids = n + 1 := ⟨hw.nr_cpu_ids - 1, by omega⟩
  have hcong : cpumask_weight hw.nr_cpu_ids (asmp_suspend hw s).st.cpu_online_mask =
      cpumask_weight hw.nr_cpu_ids (fun c => decide (c = 0)) := by
    apply cpumask_weight_congr
    intro c hc
    have hiff := hset c hc
    by_cases hc0 : c = 0
    · rw [hiff.2 hc0]; simp [hc0]
    · have : (asmp_suspend hw s).st.cpu_online_mask c ≠ true := fun e => hc0 (hiff.1 e)
      simp [hc0, this]
  unfold num_online_cpus
  rw [hcong, hn]
  exact cpumask_weight_primary n

/-- Witness for `suspend_leaves_primary_only`: a running state on four units
with units 0, 1 and 3 online and a tick pending. -/
theorem suspend_leaves_primary_only_witness :
    running_state.cpu_online_mask 0 = true ∧
    num_online_cpus (hw_all 4) running_state.cpu_online_mask = 3 ∧
    running_state.asmp_work = some 10 ∧
    num_online_cpus (hw_all 4) (asmp_suspend (hw_all 4) running_state).st.cpu_online_mask = 1 ∧
    (asmp_suspend (hw_all 4) running_state).st.asmp_work = none :=
  ⟨by decide, by decide, by decide,
    (suspend_leaves_primary_only (hw_all 4) running_state (by decide) (by decide)
      (fun _ _ => rfl)).2⟩

theorem restore_inv_step (hw : platform) (max_cpus : Nat)
    (hok : ∀ c, c < hw.nr_cpu_ids → hw.cpu_up_ok c = true)
    (k : Nat) (a : sweep) (hk : k < hw.nr_cpu_ids) (h : restore_inv hw max_cpus k a) :
    restore_inv hw max_cpus (k + 1) (restore_step hw max_cpus a k) := by
  obtain ⟨hsub, hle, hstop, hall⟩ := h
  unfold restore_step
  by_cases hs : a.stop = true
  · rw [if_pos hs]
    exact ⟨hsub, hle, hstop, fun e => absurd hs (by simp [e])⟩
  · rw [if_neg hs]
    have hs2 : a.stop = false := by simpa using hs
    by_cases hp : hw.cpu_present_mask k = true
    · rw [if_pos hp]
      by_cases hfull : num_online_cpus hw a.online ≥ max_cpus
      · rw [if_pos hfull]
        exact ⟨hsub, hle, fun _ => hfull, fun e => by simp at e⟩
      · rw [if_neg hfull]
        by_cases hoff : (!a.online k) = true
        · rw [if_pos hoff]
          have hoff2 : a.online k = false := by simpa using hoff
          have e := cpu_up_success hw a.online k hk hp hoff2 (hok k hk)
          refine ⟨fun c hc hon => ?_, ?_, fun e2 => absurd e2 (by simp [hs2]), fun _ c hc hpc => ?_⟩
          · rcases cpu_up_present hw a.online k c hon with h1 | h1
            · exact hsub c hc h1
            · exact h1.2
          · show num_online_cpus hw (cpu_up hw a.online k) ≤ max_cpus
            rw [e.2]; omega
          · show cpu_up hw a.online k c = true
            by_cases hck : c = k
            · rw [e.1]; simp [cpumask_set_cpu, hck]
            · exact cpu_up_mono hw a.online k c (hall hs2 c (by omega) hpc)
        · rw [if_neg hoff]
          have hon : a.online k = true := by simpa using hoff
          refine ⟨hsub, hle, hstop, fun _ c hc hpc => ?_⟩
          by_cases hck : c = k
          · rw [hck]; exact hon
          · exact hall hs2 c (by omega) hpc
    · rw [if_neg hp]
      refine ⟨hsub, hle, hstop, fun _ c hc hpc => ?_⟩
      by_cases hck : c = k
      · rw [hck] at hpc; exact absurd hpc hp
      · exact hall hs2 c (by omega) hpc

/-- Postcondition of the restore loop when every `cpu_up` succeeds: started from
an online set of present units with at most `max_cpus` members, it ends with
`min(max_cpus, number of present units)` units online, all of them present. -/
theorem restore_loop_count (hw : platform) (max_cpus : Nat) (online : cpumask)
    (hok : ∀ c, c < hw.nr_cpu_ids → hw.cpu_up_ok c = true)
    (hsub : ∀ c, c < hw.nr_cpu_ids → online c = true → hw.cpu_present_mask c = true)
    (hle : num_online_cpus hw online ≤ max_cpus) :
    num_online_cpus hw (restore_loop hw max_cpus online).online =
      min max_cpus (num_present_cpus hw) ∧
    (∀ c, c < hw.nr_cpu_ids → (restore_loop hw max_cpus online).online c = true →
      hw.cpu_present_mask c = true) := by
  have hinv : restore_inv hw max_cpus hw.nr_cpu_ids (restore_loop hw max_cpus online) :=
    range_foldl_invariant (restore_inv hw max_cpus) (restore_step hw max_cpus)
      hw.nr_cpu_ids { online := online, calls := [], stop := false }
      ⟨hsub, hle, fun e => by simp at e, fun _ c hc => absurd hc (Nat.not_lt_zero c)⟩
      (fun k x hk hx => restore_inv_step hw max_cpus hok k x hk hx)
  obtain ⟨h1, h2, h3, h4⟩ := hinv
  refine ⟨?_, h1⟩
  have hpres : num_online_cpus hw (restore_loop hw max_cpus online).online ≤
      num_present_cpus hw := cpumask_weight_mono h1
  by_cases hs : (restore_loop hw max_cpus online).stop = true
  · have := h3 hs
    omega
  · have hs2 : (restore_loop hw max_cpus online).stop = false := by simpa using hs
    have hge : num_present_cpus hw ≤
        num_online_cpus hw (restore_loop hw max_cpus online).online :=
      cpumask_weight_mono (fun c hc hp => h4 hs2 c hc hp)
    omega

/-- C10, as the claim states it, fails when a `cpu_up` request does not go
through: with the default tunables (`max_cpus = 2`), two present units and
only unit 0 online after a power_off, the resume handler requests `cpu_up 1`,
ignores its failure, and ends with one unit online instead of
`min(max_cpus, present) = 2`. -/
theorem resume_count_counterexample :
    valid_config suspended_state.asmp_param hw_stuck.nr_cpu_ids ∧
    hw_stuck.cpu_present_mask 0 = true ∧
    (∀ c, c < hw_stuck.nr_cpu_ids → (suspended_state.cpu_online_mask c = true ↔ c = 0)) ∧
    suspended_state.asmp_work = none ∧
    (asmp_resume hw_stuck suspended_state).calls = [hotplug_call.cpu_up 1] ∧
    num_online_cpus hw_stuck (asmp_resume hw_stuck suspended_state).st.cpu_online_mask = 1 ∧
    min suspended_state.asmp_param.max_cpus (num_present_cpus hw_stuck) = 2 := by
  decide

/-- C10, amended: for every valid configuration and every set of present units
containing unit 0, running the power_on handler `asmp_resume` on the state
left by a power_off (only unit 0 online, no tick pending), assuming each
`cpu_up` succeeds, yields an online count of
`min(max_cpus, number of present units)`, with every online unit present, and
a tick scheduled with the current tick interval. -/
theorem resume_restores_units (hw : platform) (s : asmp_state)
    (hvalid : valid_config s.asmp_param hw.nr_cpu_ids)
    (hp0 : hw.cpu_present_mask 0 = true)
    (honly : ∀ c, c < hw.nr_cpu_ids → (s.cpu_online_mask c = true ↔ c = 0))
    (hwork : s.asmp_work = none)
    (hok : ∀ c, c < hw.nr_cpu_ids → hw.cpu_up_ok c = true) :
    num_online_cpus hw (asmp_resume hw s).st.cpu_online_mask =
      min s.asmp_param.max_cpus (num_present_cpus hw) ∧
    (∀ c, c < hw.nr_cpu_ids → (asmp_resume hw s).st.cpu_online_mask c = true →
      hw.cpu_present_mask c = true) ∧
    (asmp_resume hw s).st.asmp_work = some (hw.msecs_to_jiffies s.asmp_param.delay) := by
  have hsub : ∀ c, c < hw.nr_cpu_ids → s.cpu_online_mask c = true →
      hw.cpu_present_mask c = true := by
    intro c hc hon
    rw [(honly c hc).1 hon]; exact hp0
  have hone : num_online_cpus hw s.cpu_online_mask ≤ 1 := by
    have hcong : cpumask_weight hw.nr_cpu_ids s.cpu_online_mask =
        cpumask_weight hw.nr_cpu_ids (fun c => decide (c = 0)) := by
      apply cpumask_weight_congr
      intro c hc
      have hiff := honly c hc
      by_cases hc0 : c = 0
      · rw [hiff.2 hc0]; simp [hc0]
      · have : s.cpu_online_mask c ≠ true := fun e => hc0 (hiff.1 e)
        simp [hc0, this]
    unfold num_online_cpus
    rw [hcong]
    cases hn : hw.nr_cpu_ids with
    | zero => simp [cpumask_weight]
    | succ n => rw [cpumask_weight_primary n]
  have hle : num_online_cpus hw s.cpu_online_mask ≤ s.asmp_param.max_cpus := by
    have := hvalid.1
    have := hvalid.2.1
    omega
  have hloop := restore_loop_count hw s.asmp_param.max_cpus s.cpu_online_mask hok hsub hle
  refine ⟨hloop.1, hloop.2, ?_⟩
  show queue_delayed_work s.asmp_work (hw.msecs_to_jiffies s.asmp_param.delay) = _
  rw [hwork]; rfl

/-- Witness for `resume_restores_units`: a machine with four possible units of
which unit 2 is not present, `max_cpus = 2`, `delay = 100`: the resume brings
unit 1 online and queues the tick 10 jiffies ahead. -/
theorem resume_restores_units_witness :
    valid_config suspended_state.asmp_param hw_hole.nr_cpu_ids ∧
    hw_hole.cpu_present_mask 0 = true ∧
    num_present_cpus hw_hole = 3 ∧
    num_online_cpus hw_hole (asmp_resume hw_hole suspended_state).st.cpu_online_mask =
      min suspended_state.asmp_param.max_cpus (num_present_cpus hw_hole) ∧
    (asmp_resume hw_hole suspended_state).st.asmp_work =
      some (hw_hole.msecs_to_jiffies suspended_state.asmp_param.delay) :=
  ⟨by decide, by decide, by decide,
    (resume_restores_units hw_hole suspended_state (by decide) (by decide) (by decide)
      (by decide) (fun _ _ => rfl)).1,
    (resume_restores_units hw_hole suspended_state (by decide) (by decide) (by decide)
      (by decide) (fun _ _ => rfl)).2.2⟩

/-! ## Power events applied twice -/

theorem cpu_up_other (hw : platform) (m : cpumask) (cpu x : Nat) (hx : x ≠ cpu) :
    cpu_up hw m cpu x = m x := by
  unfold cpu_up; split
  · simp [cpumask_set_cpu, hx]
  · rfl

theorem cpu_up_failed (hw : platform) (m : cpumask) (cpu : Nat)
    (h : cpu < hw.nr_cpu_ids → hw.cpu_present_mask cpu = true → m cpu = false →
      hw.cpu_up_ok cpu = false) :
    cpu_up hw m cpu = m := by
  unfold cpu_up; split
  · rename_i hc
    simp at hc
    have := h hc.1.1.1 hc.1.1.2 hc.1.2
    rw [hc.2] at this; exact absurd this (by simp)
  · rfl

theorem cpu_up_still_offline (hw : platform) (m : cpumask) (cpu : Nat)
    (hc : cpu < hw.nr_cpu_ids) (hp : hw.cpu_present_mask cpu = true)
    (h : cpu_up hw m cpu cpu = false) : hw.cpu_up_ok cpu = false := by
  by_cases hoff : m cpu = true
  · have := cpu_up_mono hw m cpu cpu hoff
    rw [h] at this; exact absurd this (by simp)
  · have hoff2 : m cpu = false := by simpa using hoff
    by_cases hok : hw.cpu_up_ok cpu = true
    · have e := (cpu_up_success hw m cpu hc hp hoff2 hok).1
      rw [e] at h; simp [cpumask_set_cpu] at h
    · simpa using hok

theorem suspend_mask_step (hw : platform) (m : cpumask) (k : Nat) (a : sweep)
    (hk : k < hw.nr_cpu_ids) (h : a.online = suspend_mask hw m k) :
    (suspend_step hw a k).online = suspend_mask hw m (k + 1) := by
  have hak : a.online k = m k := by
    rw [h]; simp [suspend_mask]
  funext c
  unfold suspend_step
  by_cases ho : a.online k = true
  · rw [if_pos ho]
    by_cases hk0 : k = 0
    · rw [if_pos hk0, h]
      subst hk0
      simp only [suspend_mask]
      by_cases hc0 : c = 0
      · simp [hc0]
      · have : ¬ c < 0 + 1 := by omega
        simp [this]
    · rw [if_neg hk0]
      show cpu_down hw a.online k c = suspend_mask hw m (k + 1) c
      by_cases hck : c = k
      · subst hck
        by_cases hok : hw.cpu_down_ok c = true
        · rw [cpu_down_success hw a.online c hk ho hok]
          simp [cpumask_clear_cpu, suspend_mask, hk0, hok]
        · have e : cpu_down hw a.online c = a.online := by
            simp [cpu_down, hok]
          rw [e, hak]; simp [suspend_mask, hok]
      · rw [cpu_down_other hw a.online k c hck, h]
        simp only [suspend_mask]
        have : c < k + 1 ↔ c < k := by omega
        simp only [this]
  · rw [if_neg ho]
    have hmk : m k = false := by rw [← hak]; simpa using ho
    by_cases hck : c = k
    · subst hck
      rw [hak, hmk]; simp [suspend_mask, hmk]
    · rw [h]
      simp only [suspend_mask]
      have : c < k + 1 ↔ c < k := by omega
      simp only [this]

/-- The online mask `asmp_suspend` leaves. -/
theorem asmp_suspend_online (hw : platform) (s : asmp_state) :
    (asmp_suspend hw s).st.cpu_online_mask =
      suspend_mask hw s.cpu_online_mask hw.nr_cpu_ids :=
  range_foldl_invariant (fun k a => a.online = suspend_mask hw s.cpu_online_mask k)
    (suspend_step hw) hw.nr_cpu_ids
    { online := s.cpu_online_mask, calls := [], stop := false }
    (by funext c; simp [suspend_mask])
    (fun k x hk hx => suspend_mask_step hw s.cpu_online_mask k x hk hx)

theorem suspend_mask_idem (hw : platform) (m : cpumask) (n : Nat) :
    suspend_mask hw (suspend_mask hw m n) n = suspend_mask hw m n := by
  funext c
  simp only [suspend_mask]
  split <;> rfl

theorem restore_settle_step (hw : platform) (max_cpus : Nat) (k : Nat) (a : sweep)
    (hk : k < hw.nr_cpu_ids) (h : restore_settle_inv hw max_cpus k a) :
    restore_settle_inv hw max_cpus (k + 1) (restore_step hw max_cpus a k) := by
  obtain ⟨hstop, hall⟩ := h
  unfold restore_step
  by_cases hs : a.stop = true
  · rw [if_pos hs]
    exact ⟨hstop, fun e => absurd hs (by simp [e])⟩
  · rw [if_neg hs]
    have hs2 : a.stop = false := by simpa using hs
    by_cases hp : hw.cpu_present_mask k = true
    · rw [if_pos hp]
      by_cases hfull : num_online_cpus hw a.online ≥ max_cpus
      · rw [if_pos hfull]
        exact ⟨fun _ => hfull, fun e => by simp at e⟩
      · rw [if_neg hfull]
        by_cases hoff : (!a.online k) = true
        · rw [if_pos hoff]
          refine ⟨fun e => absurd e (by simp [hs2]), fun _ c hc hpc hcoff => ?_⟩
          have hcoff2 : cpu_up hw a.online k c = false := hcoff
          by_cases hck : c = k
          · subst hck
            exact cpu_up_still_offline hw a.online c hk hp hcoff2
          · rw [cpu_up_other hw a.online k c hck] at hcoff2
            exact hall hs2 c (by omega) hpc hcoff2
        · rw [if_neg hoff]
          have hon : a.online k = true := by simpa using hoff
          refine ⟨hstop, fun _ c hc hpc hcoff => ?_⟩
          by_cases hck : c = k
          · subst hck; rw [hon] at hcoff; exact absurd hcoff (by simp)
          · exact hall hs2 c (by omega) hpc hcoff
    · rw [if_neg hp]
      refine ⟨hstop, fun _ c hc hpc hcoff => ?_⟩
      by_cases hck : c = k
      · subst hck; exact absurd hpc hp
      · exact hall hs2 c (by omega) hpc hcoff

/-- The restore loop ends on a mask on which it has nothing left to do. -/
theorem restore_loop_settles (hw : platform) (max_cpus : Nat) (m : cpumask) :
    restore_settled hw max_cpus (restore_loop hw max_cpus m).online := by
  have hinv : restore_settle_inv hw max_cpus hw.nr_cpu_ids (restore_loop hw max_cpus m) :=
    range_foldl_invariant (restore_settle_inv hw max_cpus) (restore_step hw max_cpus)
      hw.nr_cpu_ids { online := m, calls := [], stop := false }
      ⟨fun e => by simp at e, fun _ c hc => absurd hc (Nat.not_lt_zero c)⟩
      (fun k x hk hx => restore_settle_step hw max_cpus k x hk hx)
  by_cases hs : (restore_loop hw max_cpus m).stop = true
  · exact Or.inl (hinv.1 hs)
  · exact Or.inr (hinv.2 (by simpa using hs))

theorem restore_step_settled (hw : platform) (max_cpus : Nat) (m : cpumask)
    (h : restore_settled hw max_cpus m) (a : sweep) (cpu : Nat) (ha : a.online = m) :
    (restore_step hw max_cpus a cpu).online = m := by
  unfold restore_step
  split
  · exact ha
  · split
    · split
      · exact ha
      · rename_i hfull
        split
        · show cpu_up hw a.online cpu = m
          rw [ha]
          apply cpu_up_failed
          intro hc hp hoff
          rcases h with h | h
          · rw [ha] at hfull; exact absurd h hfull
          · exact h cpu hc hp hoff
        · exact ha
    · exact ha

/-- On a settled mask the restore loop changes nothing. -/
theorem restore_loop_settled (hw : platform) (max_cpus : Nat) (m : cpumask)
    (h : restore_settled hw max_cpus m) : (restore_loop hw max_cpus m).online = m :=
  foldl_invariant (fun a => a.online = m) (restore_step hw max_cpus)
    (fun a b ha => restore_step_settled hw max_cpus m h a b ha)
    (List.range hw.nr_cpu_ids) { online := m, calls := [], stop := false } rfl

theorem queue_delayed_work_idem (work : Option Nat) (delay : Nat) :
    queue_delayed_work (queue_delayed_work work delay) delay =
      queue_delayed_work work delay := by
  cases work <;> rfl

/-- A suspend sweep run again on the mask an earlier sweep left changes
nothing, when every `cpu_down` refused in the earlier run is refused again. -/
theorem suspend_mask_rerun (hw : platform) (up2 down2 : Nat → Bool) (m : cpumask)
    (hdown : ∀ c, c < hw.nr_cpu_ids → hw.cpu_down_ok c = false → down2 c = false) :
    suspend_mask (rerun hw up2 down2) (suspend_mask hw m hw.nr_cpu_ids) hw.nr_cpu_ids =
      suspend_mask hw m hw.nr_cpu_ids := by
  funext c
  show (if c ≠ 0 ∧ c < hw.nr_cpu_ids ∧ down2 c = true then false
    else suspend_mask hw m hw.nr_cpu_ids c) = suspend_mask hw m hw.nr_cpu_ids c
  split
  · rename_i h2
    simp only [suspend_mask]
    split
    · rfl
    · rename_i h1
      exfalso
      apply h1
      refine ⟨h2.1, h2.2.1, ?_⟩
      by_contra hno
      have hf : hw.cpu_down_ok c = false := by simpa using hno
      have := hdown c h2.2.1 hf
      rw [h2.2.2] at this; exact absurd this (by simp)
  · rfl

/-- A mask on which the restore loop has nothing left to do stays so at a later
run, when every `cpu_up` refused in the earlier run is refused again. -/
theorem restore_settled_rerun (hw : platform) (up2 down2 : Nat → Bool) (max_cpus : Nat)
    (m : cpumask)
    (hup : ∀ c, c < hw.nr_cpu_ids → hw.cpu_up_ok c = false → up2 c = false)
    (h : restore_settled hw max_cpus m) :
    restore_settled (rerun hw up2 down2) max_cpus m := by
  rcases h with h | h
  · exact Or.inl h
  · exact Or.inr (fun c hc hp hoff => hup c hc (h c hc hp hoff))

/-- C11, as the claim states it, fails when a hotplug request refused in the
first run is accepted in the second.  On a machine with four present units
and units 0, 1 and 3 online: the first `asmp_suspend` has its `cpu_down(1)`
refused and leaves unit 1 online, the second takes it offline; the first
`asmp_resume` has its `cpu_up(2)` refused and leaves three units online, the
second brings unit 2 online.  In both cases the state after two runs differs
from the state after one. -/
theorem power_events_counterexample :
    ((asmp_suspend hw_refusing running_state).st.cpu_online_mask 1 = true ∧
      (asmp_suspend (rerun hw_refusing (fun _ => true) (fun _ => true))
        (asmp_suspend hw_refusing running_state).st).st.cpu_online_mask 1 = false ∧
      (asmp_suspend (rerun hw_refusing (fun _ => true) (fun _ => true))
        (asmp_suspend hw_refusing running_state).st).st ≠
          (asmp_suspend hw_refusing running_state).st) ∧
    (num_online_cpus hw_refusing
        (asmp_resume hw_refusing running_state).st.cpu_online_mask = 3 ∧
      num_online_cpus hw_refusing
        (asmp_resume (rerun hw_refusing (fun _ => true) (fun _ => true))
          (asmp_resume hw_refusing running_state).st).st.cpu_online_mask = 4 ∧
      (asmp_resume (rerun hw_refusing (fun _ => true) (fun _ => true))
        (asmp_resume hw_refusing running_state).st).st ≠
          (asmp_resume hw_refusing running_state).st) := by
  refine ⟨⟨by decide, by decide, fun h => ?_⟩, ⟨by decide, by decide, fun h => ?_⟩⟩
  · have e := congrArg (fun t => t.cpu_online_mask 1) h
    revert e
    decide
  · have e := congrArg (fun t => t.cpu_online_mask 2) h
    revert e
    decide

/-- C11, amended: power events are idempotent provided every hotplug request
refused in the first run is refused again in the second (as when a request on
a given unit has the same outcome in both runs).  For every state,
configuration and machine, and whatever the outcomes of the hotplug requests
in the second run are otherwise, applying the power_off handler
`asmp_suspend` twice in a row then leaves the same state (online set,
tick-pending flag, cycle counter and every other variable) as applying it
once, and applying the power_on handler `asmp_resume` twice in a row leaves
the same state as applying it once. -/
theorem power_events_idempotent (hw : platform) (s : asmp_state)
    (up2 down2 : Nat → Bool)
    (hdown : ∀ c, c < hw.nr_cpu_ids → hw.cpu_down_ok c = false → down2 c = false)
    (hup : ∀ c, c < hw.nr_cpu_ids → hw.cpu_up_ok c = false → up2 c = false) :
    (asmp_suspend (rerun hw up2 down2) (asmp_suspend hw s).st).st = (asmp_suspend hw s).st ∧
    (asmp_resume (rerun hw up2 down2) (asmp_resume hw s).st).st = (asmp_resume hw s).st := by
  constructor
  · have e0 := asmp_suspend_online hw s
    have e1 : (asmp_suspend (rerun hw up2 down2) (asmp_suspend hw s).st).st.cpu_online_mask =
        suspend_mask (rerun hw up2 down2) (asmp_suspend hw s).st.cpu_online_mask
          hw.nr_cpu_ids :=
      asmp_suspend_online (rerun hw up2 down2) (asmp_suspend hw s).st
    rw [e0, suspend_mask_rerun hw up2 down2 s.cpu_online_mask hdown] at e1
    show ({ (asmp_suspend hw s).st with
        asmp_work := cancel_delayed_work_sync (asmp_suspend hw s).st.asmp_work,
        cpu_online_mask :=
          (asmp_suspend (rerun hw up2 down2) (asmp_suspend hw s).st).st.cpu_online_mask } :
          asmp_state) = (asmp_suspend hw s).st
    rw [e1, ← e0]
    rfl
  · have hfix := restore_loop_settled (rerun hw up2 down2) s.asmp_param.max_cpus _
      (restore_settled_rerun hw up2 down2 s.asmp_param.max_cpus _ hup
        (restore_loop_settles hw s.asmp_param.max_cpus s.cpu_online_mask))
    show ({ (asmp_resume hw s).st with
        cpu_online_mask := (restore_loop (rerun hw up2 down2) s.asmp_param.max_cpus
          (restore_loop hw s.asmp_param.max_cpus s.cpu_online_mask).online).online,
        asmp_work := queue_delayed_work
          (queue_delayed_work s.asmp_work (hw.msecs_to_jiffies s.asmp_param.delay))
          (hw.msecs_to_jiffies s.asmp_param.delay) } : asmp_state) = (asmp_resume hw s).st
    rw [hfix, queue_delayed_work_idem]
    rfl

/-- Witness for `power_events_idempotent`: units 0, 1 and 3 online on the
machine that refuses `cpu_down(1)` and `cpu_up(2)`, with the same refusals in
the second run: the first suspend leaves units 0 and 1 online, the first
resume leaves three units online, and a second run of either changes
nothing. -/
theorem power_events_idempotent_witness :
    (∀ c, c < hw_refusing.nr_cpu_ids → hw_refusing.cpu_down_ok c = false →
      decide (c ≠ 1) = false) ∧
    (∀ c, c < hw_refusing.nr_cpu_ids → hw_refusing.cpu_up_ok c = false →
      decide (c ≠ 2) = false) ∧
    num_online_cpus hw_refusing (asmp_suspend hw_refusing running_state).st.cpu_online_mask = 2 ∧
    num_online_cpus hw_refusing (asmp_resume hw_refusing running_state).st.cpu_online_mask = 3 ∧
    (asmp_suspend (rerun hw_refusing (fun c => decide (c ≠ 2)) (fun c => decide (c ≠ 1)))
      (asmp_suspend hw_refusing running_state).st).st =
        (asmp_suspend hw_refusing running_state).st ∧
    (asmp_resume (rerun hw_refusing (fun c => decide (c ≠ 2)) (fun c => decide (c ≠ 1)))
      (asmp_resume hw_refusing running_state).st).st =
        (asmp_resume hw_refusing running_state).st :=
  ⟨by decide, by decide, by decide, by decide,
    power_events_idempotent hw_refusing running_state (fun c => decide (c ≠ 2))
      (fun c => decide (c ≠ 1)) (by decide) (by decide)⟩

/-! ## The sysfs stores -/

/-- C12, as the claim states it, fails: with the default tunables
(`min_cpus = 1`, `max_cpus = 2`) the write `max_cpus = 0` (a two-byte buffer,
on a machine of any size, four units included) is accepted, returns the byte
count, and stores 0, leaving `min_cpus > max_cpus`; the write `min_cpus = 9`
is accepted as well. -/
theorem store_cpus_counterexample :
    (store_max_cpus asmp_param_init (some 0) 2).2 = 2 ∧
    (store_max_cpus asmp_param_init (some 0) 2).1.max_cpus = 0 ∧
    (store_max_cpus asmp_param_init (some 0) 2).1 ≠ asmp_param_init ∧
    (store_max_cpus asmp_param_init (some 0) 2).1.min_cpus >
      (store_max_cpus asmp_param_init (some 0) 2).1.max_cpus ∧
    (store_min_cpus asmp_param_init (some 9) 2).2 = 2 ∧
    (store_min_cpus asmp_param_init (some 9) 2).1.min_cpus = 9 := by
  decide

/-- C12, amended: `store_min_cpus` and `store_max_cpus` validate nothing but
the conversion.  A write whose text converts to an unsigned integer is
accepted whatever the value (0, values above the number of units and values
that make `min_cpus > max_cpus` included): it returns the byte count and
stores the value in its field, leaving the other tunables as they were.  Only
a write whose text does not convert is rejected, with `-EINVAL`, and leaves
the stored configuration unchanged. -/
theorem store_cpus_unvalidated (p : asmp_param_struct) (v count : Nat) :
    store_min_cpus p (some v) count = ({ p with min_cpus := v % 4294967296 }, (count : Int)) ∧
    store_max_cpus p (some v) count = ({ p with max_cpus := v % 4294967296 }, (count : Int)) ∧
    store_min_cpus p none count = (p, -22) ∧
    store_max_cpus p none count = (p, -22) :=
  ⟨rfl, rfl, rfl, rfl⟩

/-- C13, as the claim states it, fails: the writes `cpufreq_up = 150` and
`cpufreq_down = 4000` are accepted, return the byte count and are stored, so
after them neither percentage is in `[0, 100]`. -/
theorem store_percent_counterexample :
    (store_cpufreq_up asmp_param_init (some 150) 4).2 = 4 ∧
    (store_cpufreq_up asmp_param_init (some 150) 4).1.cpufreq_up = 150 ∧
    (store_cpufreq_down asmp_param_init (some 4000) 5).2 = 5 ∧
    (store_cpufreq_down asmp_param_init (some 4000) 5).1.cpufreq_down = 4000 ∧
    ¬ ((store_cpufreq_up asmp_param_init (some 150) 4).1.cpufreq_up ≤ 100) := by
  decide

/-- C13, amended: `store_cpufreq_up` and `store_cpufreq_down` validate nothing
but the conversion.  A write whose text converts to an unsigned integer is
accepted whatever the value, values greater than 100 included: it returns the
byte count and stores the value, leaving the other tunables as they were, so
a percentage can hold any 32-bit value after a write.  Only a write whose text
does not convert is rejected, with `-EINVAL`, and leaves the stored
configuration unchanged. -/
theorem store_percent_unvalidated (p : asmp_param_struct) (v count : Nat) :
    store_cpufreq_up p (some v) count =
      ({ p with cpufreq_up := v % 4294967296 }, (count : Int)) ∧
    store_cpufreq_down p (some v) count =
      ({ p with cpufreq_down := v % 4294967296 }, (count : Int)) ∧
    store_cpufreq_up p none count = (p, -22) ∧
    store_cpufreq_down p none count = (p, -22) ∧
    (v ≤ UINT_MAX → (store_cpufreq_up p (some v) count).1.cpufreq_up = v ∧
      (store_cpufreq_down p (some v) count).1.cpufreq_down = v) := by
  refine ⟨rfl, rfl, rfl, rfl, fun hv => ?_⟩
  have e : u32 v = v := u32_of_lt hv
  exact ⟨e, e⟩

/-- Witness for `store_percent_unvalidated`: the value 150 is stored as is. -/
theorem store_percent_unvalidated_witness :
    150 ≤ UINT_MAX ∧
    (store_cpufreq_up asmp_param_init (some 150) 4).1.cpufreq_up = 150 ∧
    (store_cpufreq_down asmp_param_init (some 150) 4).1.cpufreq_down = 150 :=
  ⟨by decide, (store_percent_unvalidated asmp_param_init 150 4).2.2.2.2 (by decide)⟩

/-! ## Threshold arithmetic -/

theorem asmp_work_sample_up_rate (hw : platform) (fq : cpufreq) (s : asmp_state) (m : Nat)
    (hm : fq.policy_max = some m) :
    (asmp_work_sample hw fq s).up_rate = u32 (s.asmp_param.cpufreq_up * u32 m) / 100 ∧
    (asmp_work_sample hw fq s).down_rate = u32 (s.asmp_param.cpufreq_down * u32 m) / 100 := by
  constructor <;> simp only [asmp_work_sample, hm]

/-- C14, as the claim states it, fails: with `cpufreq_up = 90` and the 32-bit
maximum rate 50000000 the product 4500000000 wraps to 205032704, so the tick
computes `up_rate = 2050327` where the natural-number value is 45000000. -/
theorem threshold_wrap_counterexample :
    default_state.asmp_param.cpufreq_up = 90 ∧
    fast_clock_fq.policy_max = some 50000000 ∧
    50000000 ≤ UINT_MAX ∧
    (asmp_work_sample (hw_all 2) fast_clock_fq default_state).up_rate = 2050327 ∧
    default_state.asmp_param.cpufreq_up * 50000000 / 100 = 45000000 := by
  decide

/-- C14, amended: for every 32-bit maximum rate the tick computes
`up_rate = ((cpufreq_up * max_rate) mod 2^32) / 100` and
`down_rate = ((cpufreq_down * max_rate) mod 2^32) / 100`; these equal
`floor(cpufreq_up * max_rate / 100)` and `floor(cpufreq_down * max_rate / 100)`
over the natural numbers whenever the product is below 2^32, in particular
for every percentage in `[0, 100]` and every maximum rate up to 42949672. -/
theorem threshold_exact (hw : platform) (fq : cpufreq) (s : asmp_state) (m : Nat)
    (hm : fq.policy_max = some m) (hmax : m ≤ UINT_MAX) :
    (asmp_work_sample hw fq s).up_rate =
      (s.asmp_param.cpufreq_up * m) % 4294967296 / 100 ∧
    (asmp_work_sample hw fq s).down_rate =
      (s.asmp_param.cpufreq_down * m) % 4294967296 / 100 ∧
    (s.asmp_param.cpufreq_up * m < 4294967296 →
      (asmp_work_sample hw fq s).up_rate = s.asmp_param.cpufreq_up * m / 100) ∧
    (s.asmp_param.cpufreq_down * m < 4294967296 →
      (asmp_work_sample hw fq s).down_rate = s.asmp_param.cpufreq_down * m / 100) ∧
    (s.asmp_param.cpufreq_up ≤ 100 → s.asmp_param.cpufreq_down ≤ 100 → m ≤ 42949672 →
      (asmp_work_sample hw fq s).up_rate = s.asmp_param.cpufreq_up * m / 100 ∧
      (asmp_work_sample hw fq s).down_rate = s.asmp_param.cpufreq_down * m / 100) := by
  obtain ⟨hu, hd⟩ := asmp_work_sample_up_rate hw fq s m hm
  rw [u32_of_lt hmax] at hu hd
  have hu2 : (asmp_work_sample hw fq s).up_rate =
      (s.asmp_param.cpufreq_up * m) % 4294967296 / 100 := hu
  have hd2 : (asmp_work_sample hw fq s).down_rate =
      (s.asmp_param.cpufreq_down * m) % 4294967296 / 100 := hd
  have small : ∀ a : Nat, a * m < 4294967296 → (a * m) % 4294967296 = a * m :=
    fun a h => Nat.mod_eq_of_lt h
  have bound : ∀ a : Nat, a ≤ 100 → m ≤ 42949672 → a * m < 4294967296 := by
    intro a ha hm2
    calc a * m ≤ 100 * 42949672 := Nat.mul_le_mul ha hm2
      _ < 4294967296 := by decide
  refine ⟨hu2, hd2, fun h => ?_, fun h => ?_, fun h1 h2 h3 => ⟨?_, ?_⟩⟩
  · rw [hu2, small _ h]
  · rw [hd2, small _ h]
  · rw [hu2, small _ (bound _ h1 h3)]
  · rw [hd2, small _ (bound _ h2 h3)]

/-- Witness for `threshold_exact`: the scenarios' maximum rate 1000000 with the
default percentages 90 and 45 gives the thresholds 900000 and 450000. -/
theorem threshold_exact_witness :
    debounce_fq.policy_max = some 1000000 ∧
    (asmp_work_sample (hw_all 2) debounce_fq default_state).up_rate =
      default_state.asmp_param.cpufreq_up * 1000000 / 100 ∧
    (asmp_work_sample (hw_all 2) debounce_fq default_state).down_rate =
      default_state.asmp_param.cpufreq_down * 1000000 / 100 :=
  ⟨rfl,
    (threshold_exact (hw_all 2) debounce_fq default_state 1000000 rfl (by decide)).2.2.2.2
      (by decide) (by decide) (by decide)⟩

/-! ## Scale-up target -/

theorem cpumask_next_zero_le (nbits n : Nat) (mask : cpumask) :
    cpumask_next_zero nbits n mask ≤ nbits := by
  unfold cpumask_next_zero
  cases hf : (List.range nbits).find? (fun c => decide (n < c) && !mask c) with
  | none => simp
  | some c =>
    have := List.mem_of_find?_eq_some hf
    simp at this
    simp; omega

/-- The identifier `cpumask_next_zero` returns is the lowest one above `n` whose
bit is clear. -/
theorem cpumask_next_zero_min (nbits n : Nat) (mask : cpumask) (x : Nat)
    (hn : n < x) (hx : x < nbits) (hm : mask x = false) :
    cpumask_next_zero nbits n mask ≤ x := by
  induction nbits with
  | zero => omega
  | succ k ih =>
    unfold cpumask_next_zero at ih ⊢
    rw [List.range_succ, List.find?_append]
    cases hf : (List.range k).find? (fun c => decide (n < c) && !mask c) with
    | some c =>
      simp only [Option.or_some, Option.getD_some]
      by_cases hxk : x < k
      · have := ih hxk
        rw [hf] at this; simpa using this
      · have := List.mem_of_find?_eq_some hf
        simp at this
        omega
    | none =>
      have hnone := List.find?_eq_none.mp hf
      have hxk : x = k := by
        by_contra hne
        have hlt : x < k := by omega
        exact hnone x (by simp [hlt]) (by simp [hn, hm])
      subst hxk
      simp [hn, hm]

/-- C15, as the claim states it, fails: on a machine whose unit 1 is not
present, with only unit 0 online and `max_cpus = 4`, a firing scale-up passes
unit 1 to `cpu_up`; unit 1 is not present, the lowest offline present unit is
unit 2, and no unit comes online. -/
theorem scale_up_target_counterexample :
    (asmp_work_fn hw_sparse saturated_fq lone_state).calls = [hotplug_call.cpu_up 1] ∧
    hw_sparse.cpu_present_mask 1 = false ∧
    hw_sparse.cpu_present_mask 2 = true ∧ lone_state.cpu_online_mask 2 = false ∧
    num_online_cpus hw_sparse
      (asmp_work_fn hw_sparse saturated_fq lone_state).st.cpu_online_mask = 1 := by
  decide

/-- C15, amended: for every online set and present set, the unit a firing
scale-up passes to `cpu_up` is `cpumask_next_zero(0, cpu_online_mask)`, a
function of the online set alone: when it is a valid identifier it is above 0,
currently offline, and the lowest such identifier, whether or not that unit is
present; so when it is present it is the lowest-identifier unit among the
offline present units above 0. -/
theorem scale_up_target (hw : platform) (fq : cpufreq) (s : asmp_state) (c : Nat)
    (hcall : hotplug_call.cpu_up c ∈ (asmp_work_fn hw fq s).calls) :
    c = cpumask_next_zero hw.nr_cpu_ids 0 s.cpu_online_mask ∧
    (asmp_work_fn hw fq s).calls = [hotplug_call.cpu_up c] ∧
    (c < hw.nr_cpu_ids →
      0 < c ∧ s.cpu_online_mask c = false ∧
      (∀ x, 0 < x → x < hw.nr_cpu_ids → s.cpu_online_mask x = false → c ≤ x) ∧
      (hw.cpu_present_mask c = true →
        ∀ x, 0 < x → x < hw.nr_cpu_ids → s.cpu_online_mask x = false →
          hw.cpu_present_mask x = true → c ≤ x)) := by
  have hc : c = cpumask_next_zero hw.nr_cpu_ids 0 s.cpu_online_mask := by
    rcases asmp_work_fn_cases hw fq s with h | h | h
    · rw [h.2.2.2.1] at hcall; simpa using hcall
    · rw [h.2.2.2.2.2.1] at hcall; simp at hcall
    · rw [h.2.2.1] at hcall; simp at hcall
  have hcalls : (asmp_work_fn hw fq s).calls = [hotplug_call.cpu_up c] := by
    rcases asmp_work_fn_cases hw fq s with h | h | h
    · rw [h.2.2.2.1, hc]
    · rw [h.2.2.2.2.2.1] at hcall; simp at hcall
    · rw [h.2.2.1] at hcall; simp at hcall
  refine ⟨hc, hcalls, fun hlt => ?_⟩
  rw [hc] at hlt ⊢
  have hspec := cpumask_next_zero_spec hw.nr_cpu_ids 0 s.cpu_online_mask hlt
  exact ⟨hspec.1, hspec.2,
    fun x h0 hx hoff => cpumask_next_zero_min hw.nr_cpu_ids 0 s.cpu_online_mask x h0 hx hoff,
    fun _ x h0 hx hoff _ =>
      cpumask_next_zero_min hw.nr_cpu_ids 0 s.cpu_online_mask x h0 hx hoff⟩

/-- Witness for `scale_up_target`: in the scale-up scenario (units 0 and 1
online, three present units) the tick passes unit 2, the lowest offline
present unit. -/
theorem scale_up_target_witness :
    hotplug_call.cpu_up 2 ∈ (asmp_work_fn (hw_all 3) saturated_fq (saturated_state 1)).calls ∧
    2 < (hw_all 3).nr_cpu_ids ∧
    2 = cpumask_next_zero (hw_all 3).nr_cpu_ids 0 (saturated_state 1).cpu_online_mask ∧
    (saturated_state 1).cpu_online_mask 2 = false :=
  ⟨by decide, by decide,
    (scale_up_target (hw_all 3) saturated_fq (saturated_state 1) 2 (by decide)).1,
    ((scale_up_target (hw_all 3) saturated_fq (saturated_state 1) 2 (by decide)).2.2
      (by decide)).2.1⟩

/-! ## The restore loop -/

theorem restore_calls_step (hw : platform) (max_cpus : Nat) (m : cpumask) (k : Nat)
    (a : sweep) (h : restore_calls_inv hw m k a) :
    restore_calls_inv hw m (k + 1) (restore_step hw max_cpus a k) := by
  obtain ⟨hrest, hcalls, hord⟩ := h
  have keep : restore_calls_inv hw m (k + 1) a :=
    ⟨fun c hc => hrest c (by omega),
      fun call hcall => by
        obtain ⟨c, h1, h2, h3, h4⟩ := hcalls call hcall
        exact ⟨c, h1, by omega, h3, h4⟩,
      hord⟩
  unfold restore_step
  split
  · exact keep
  · split
    · rename_i hp
      split
      · exact ⟨keep.1, keep.2.1, keep.2.2⟩
      · split
        · rename_i hoff
          have hoff2 : a.online k = false := by simpa using hoff
          have hmk : m k = false := by rw [← hrest k (Nat.le_refl k)]; exact hoff2
          refine ⟨fun c hc => ?_, fun call hcall => ?_, ?_⟩
          · show cpu_up hw a.online k c = m c
            rw [cpu_up_other hw a.online k c (by omega)]
            exact hrest c (by omega)
          · have hmem : call ∈ a.calls ++ [hotplug_call.cpu_up k] := hcall
            rw [List.mem_append] at hmem
            rcases hmem with hmem | hmem
            · exact keep.2.1 call hmem
            · rw [List.mem_singleton] at hmem
              exact ⟨k, hmem, Nat.lt_succ_self k, hp, hmk⟩
          · show (a.calls ++ [hotplug_call.cpu_up k]).Pairwise (fun x y => x.cpu < y.cpu)
            rw [List.pairwise_append]
            refine ⟨hord, List.pairwise_singleton _ _, fun x hx y hy => ?_⟩
            rw [List.mem_singleton] at hy
            obtain ⟨c, h1, h2, _, _⟩ := hcalls x hx
            rw [h1, hy]
            exact h2
        · exact keep
    · exact keep

theorem restore_reach_step (hw : platform) (max_cpus : Nat)
    (hok : ∀ c, c < hw.nr_cpu_ids → hw.cpu_up_ok c = true)
    (k : Nat) (a : sweep) (hk : k < hw.nr_cpu_ids) (h : restore_reach_inv hw max_cpus k a) :
    restore_reach_inv hw max_cpus (k + 1) (restore_step hw max_cpus a k) := by
  obtain ⟨hstop, hall⟩ := h
  unfold restore_step
  by_cases hs : a.stop = true
  · rw [if_pos hs]
    exact ⟨hstop, fun e => absurd hs (by simp [e])⟩
  · rw [if_neg hs]
    have hs2 : a.stop = false := by simpa using hs
    by_cases hp : hw.cpu_present_mask k = true
    · rw [if_pos hp]
      by_cases hfull : num_online_cpus hw a.online ≥ max_cpus
      · rw [if_pos hfull]
        exact ⟨fun _ => hfull, fun e => by simp at e⟩
      · rw [if_neg hfull]
        by_cases hoff : (!a.online k) = true
        · rw [if_pos hoff]
          have hoff2 : a.online k = false := by simpa using hoff
          have e := cpu_up_success hw a.online k hk hp hoff2 (hok k hk)
          refine ⟨fun e2 => absurd e2 (by simp [hs2]), fun _ c hc hpc => ?_⟩
          show cpu_up hw a.online k c = true
          by_cases hck : c = k
          · rw [e.1]; simp [cpumask_set_cpu, hck]
          · exact cpu_up_mono hw a.online k c (hall hs2 c (by omega) hpc)
        · rw [if_neg hoff]
          have hon : a.online k = true := by simpa using hoff
          refine ⟨hstop, fun _ c hc hpc => ?_⟩
          by_cases hck : c = k
          · rw [hck]; exact hon
          · exact hall hs2 c (by omega) hpc
    · rw [if_neg hp]
      refine ⟨hstop, fun _ c hc hpc => ?_⟩
      by_cases hck : c = k
      · rw [hck] at hpc; exact absurd hpc hp
      · exact hall hs2 c (by omega) hpc

/-- C16, as the claim states it, fails when a `cpu_up` request does not go
through: on a machine with four present units whose unit 2 cannot be brought
online, with units 0 and 1 online and `max_cpus = 4`, the disable path
requests `cpu_up 2` and `cpu_up 3`, ignores the failure of the first, and ends
with three units online: fewer than `max_cpus`, not every present unit online,
and not `min(max_cpus, present) = 4`. -/
theorem restore_max_counterexample :
    (∀ c, c < hw_flaky.nr_cpu_ids → half_state.cpu_online_mask c = true →
      hw_flaky.cpu_present_mask c = true) ∧
    num_online_cpus hw_flaky half_state.cpu_online_mask ≤ half_state.asmp_param.max_cpus ∧
    (asmp_stop hw_flaky half_state).calls =
      [hotplug_call.cpu_up 2, hotplug_call.cpu_up 3] ∧
    num_online_cpus hw_flaky (asmp_stop hw_flaky half_state).st.cpu_online_mask = 3 ∧
    half_state.asmp_param.max_cpus = 4 ∧
    hw_flaky.cpu_present_mask 2 = true ∧
    (asmp_stop hw_flaky half_state).st.cpu_online_mask 2 = false ∧
    min half_state.asmp_param.max_cpus (num_present_cpus hw_flaky) = 4 := by
  decide

/-- C16, amended: the restore loop, as run on disable (`asmp_stop`) and on
resume (`asmp_resume`, which runs the same loop).  For every online set
contained in the present set and every `max_cpus`, the loop never takes a unit
offline and requests `cpu_up` only for present offline units, in increasing
identifier order; and, assuming each `cpu_up` succeeds, it ends with the
online count at least `max_cpus` or with every present unit online, and if it
started with the online count at most `max_cpus` it ends with the online count
equal to `min(max_cpus, number of present units)`. -/
theorem restore_max_postcondition (hw : platform) (s : asmp_state)
    (hsub : ∀ c, c < hw.nr_cpu_ids → s.cpu_online_mask c = true →
      hw.cpu_present_mask c = true) :
    ((asmp_resume hw s).st.cpu_online_mask = (asmp_stop hw s).st.cpu_online_mask ∧
      (asmp_resume hw s).calls = (asmp_stop hw s).calls) ∧
    (∀ x, s.cpu_online_mask x = true → (asmp_stop hw s).st.cpu_online_mask x = true) ∧
    (∀ call, call ∈ (asmp_stop hw s).calls → ∃ c, call = hotplug_call.cpu_up c ∧
      c < hw.nr_cpu_ids ∧ hw.cpu_present_mask c = true ∧ s.cpu_online_mask c = false) ∧
    (asmp_stop hw s).calls.Pairwise (fun x y => x.cpu < y.cpu) ∧
    ((∀ c, c < hw.nr_cpu_ids → hw.cpu_up_ok c = true) →
      (s.asmp_param.max_cpus ≤ num_online_cpus hw (asmp_stop hw s).st.cpu_online_mask ∨
        ∀ c, c < hw.nr_cpu_ids → hw.cpu_present_mask c = true →
          (asmp_stop hw s).st.cpu_online_mask c = true) ∧
      (num_online_cpus hw s.cpu_online_mask ≤ s.asmp_param.max_cpus →
        num_online_cpus hw (asmp_stop hw s).st.cpu_online_mask =
          min s.asmp_param.max_cpus (num_present_cpus hw))) := by
  have hcalls : restore_calls_inv hw s.cpu_online_mask hw.nr_cpu_ids
      (restore_loop hw s.asmp_param.max_cpus s.cpu_online_mask) :=
    range_foldl_invariant (restore_calls_inv hw s.cpu_online_mask)
      (restore_step hw s.asmp_param.max_cpus) hw.nr_cpu_ids
      { online := s.cpu_online_mask, calls := [], stop := false }
      ⟨fun _ _ => rfl, fun call hcall => absurd hcall (List.not_mem_nil call),
        List.Pairwise.nil⟩
      (fun k x _ hx => restore_calls_step hw s.asmp_param.max_cpus s.cpu_online_mask k x hx)
  refine ⟨⟨rfl, rfl⟩, fun x hx => ?_, hcalls.2.1, hcalls.2.2, fun hok => ⟨?_, fun hle => ?_⟩⟩
  · exact (restore_loop_monotone hw s.asmp_param.max_cpus s.cpu_online_mask x hx).1
  · have hreach : restore_reach_inv hw s.asmp_param.max_cpus hw.nr_cpu_ids
        (restore_loop hw s.asmp_param.max_cpus s.cpu_online_mask) :=
      range_foldl_invariant (restore_reach_inv hw s.asmp_param.max_cpus)
        (restore_step hw s.asmp_param.max_cpus) hw.nr_cpu_ids
        { online := s.cpu_online_mask, calls := [], stop := false }
        ⟨fun e => by simp at e, fun _ c hc => absurd hc (Nat.not_lt_zero c)⟩
        (fun k x hk hx => restore_reach_step hw s.asmp_param.max_cpus hok k x hk hx)
    by_cases hs : (restore_loop hw s.asmp_param.max_cpus s.cpu_online_mask).stop = true
    · exact Or.inl (hreach.1 hs)
    · exact Or.inr (hreach.2 (by simpa using hs))
  · exact (restore_loop_count hw s.asmp_param.max_cpus s.cpu_online_mask hok hsub hle).1

/-- Witness for `restore_max_postcondition`: on a machine with four possible
units of which unit 2 is not present, units 0 and 1 online and `max_cpus = 4`,
the disable path brings unit 3 online and ends with the three present units
online. -/
theorem restore_max_postcondition_witness :
    (∀ c, c < hw_hole.nr_cpu_ids → half_state.cpu_online_mask c = true →
      hw_hole.cpu_present_mask c = true) ∧
    (∀ c, c < hw_hole.nr_cpu_ids → hw_hole.cpu_up_ok c = true) ∧
    num_online_cpus hw_hole half_state.cpu_online_mask ≤ half_state.asmp_param.max_cpus ∧
    (asmp_stop hw_hole half_state).calls = [hotplug_call.cpu_up 3] ∧
    num_online_cpus hw_hole (asmp_stop hw_hole half_state).st.cpu_online_mask =
      min half_state.asmp_param.max_cpus (num_present_cpus hw_hole) :=
  ⟨by decide, fun _ _ => rfl, by decide, by decide,
    ((restore_max_postcondition hw_hole half_state (by decide)).2.2.2.2
      (fun _ _ => rfl)).2 (by decide)⟩

/-! ## Scale-down victim -/

theorem scan_victim_step (fq : cpufreq) (online : cpumask) (k : Nat) (v : scan)
    (h : scan_victim_inv fq online k v) :
    scan_victim_inv fq online (k + 1) (scan_step fq online v k) := by
  unfold scan_step
  by_cases ho : online k = true
  · rw [if_pos ho]
    by_cases hk : k ≠ 0
    · rw [if_pos hk]
      by_cases hr : u32 (fq.quick_get k) ≤ v.slow_rate
      · simp only [hr, if_true]
        intro _ x hx hxk _
        exact absurd hxk (by simp only [] at hx; omega)
      · have keep : scan_victim_inv fq online (k + 1) v := by
          intro hne x hx hxk hxo
          by_cases hxe : x = k
          · subst hxe; omega
          · exact h hne x hx (by omega) hxo
        simp only [hr, if_false]
        split
        · exact keep
        · exact keep
    · rw [if_neg hk]
      intro hne x hx hxk hxo
      have hk0 : k = 0 := by omega
      exact h hne x hx (by omega) hxo
  · rw [if_neg ho]
    intro hne x hx hxk hxo
    by_cases hxe : x = k
    · subst hxe; exact absurd hxo ho
    · exact h hne x hx (by omega) hxo

theorem scan_victim_range (fq : cpufreq) (online : cpumask) (r0 : Nat) (k : Nat) :
    scan_victim_inv fq online k
      ((List.range k).foldl (scan_step fq online)
        { slow_cpu := 0, slow_rate := UINT_MAX, fast_rate := r0 }) :=
  range_foldl_invariant (scan_victim_inv fq online) (scan_step fq online) k
    { slow_cpu := 0, slow_rate := UINT_MAX, fast_rate := r0 }
    (fun hne => absurd rfl hne)
    (fun j x _ hx => scan_victim_step fq online j x hx)

/-- The unit the scan records in `slow_cpu`, when it records one: a non-primary
online unit whose rate is the minimum over the non-primary online units, the
last such unit in identifier order. -/
theorem sample_slow_cpu (hw : platform) (fq : cpufreq) (s : asmp_state)
    (hne : (asmp_work_sample hw fq s).slow_cpu ≠ 0) :
    (asmp_work_sample hw fq s).slow_cpu < hw.nr_cpu_ids ∧
    s.cpu_online_mask (asmp_work_sample hw fq s).slow_cpu = true ∧
    (∀ x, x ≠ 0 → x < hw.nr_cpu_ids → s.cpu_online_mask x = true →
      u32 (fq.quick_get (asmp_work_sample hw fq s).slow_cpu) ≤ u32 (fq.quick_get x)) ∧
    (∀ x, (asmp_work_sample hw fq s).slow_cpu < x → x < hw.nr_cpu_ids →
      s.cpu_online_mask x = true →
      u32 (fq.quick_get (asmp_work_sample hw fq s).slow_cpu) < u32 (fq.quick_get x)) := by
  obtain ⟨_, h2, h3⟩ :=
    scan_inv_range fq s.cpu_online_mask (u32 (fq.quick_get 0)) hw.nr_cpu_ids
  have h4 := scan_victim_range fq s.cpu_online_mask (u32 (fq.quick_get 0)) hw.nr_cpu_ids
  have e : (asmp_work_sample hw fq s).slow_cpu =
      ((List.range hw.nr_cpu_ids).foldl (scan_step fq s.cpu_online_mask)
        { slow_cpu := 0, slow_rate := UINT_MAX, fast_rate := u32 (fq.quick_get 0) }).slow_cpu :=
    rfl
  rw [e] at hne ⊢
  rcases h3 with h3 | h3
  · exact absurd h3.1 hne
  · refine ⟨h3.2.1, h3.2.2.1, fun x hx0 hx hxo => ?_, fun x hlt hx hxo => ?_⟩
    · rw [← h3.2.2.2]; exact h2 x hx hx0 hxo
    · rw [← h3.2.2.2]; exact h4 hne x hlt hx hxo

/-- C18: the scale-down victim.  For every tick that issues a `cpu_down`, and
for every tick after which a unit that was online is offline, the unit
concerned is an online unit with identifier other than 0 whose sampled rate is
the minimum among the sampled rates of all online units with identifier other
than 0, and on a tie the one visited last in increasing identifier order
(every online unit after it has a strictly higher rate). -/
theorem scale_down_victim (hw : platform) (fq : cpufreq) (s : asmp_state) (c : Nat)
    (hdown : hotplug_call.cpu_down c ∈ (asmp_work_fn hw fq s).calls ∨
      (s.cpu_online_mask c = true ∧ (asmp_work_fn hw fq s).st.cpu_online_mask c = false)) :
    (asmp_work_fn hw fq s).calls = [hotplug_call.cpu_down c] ∧
    c ≠ 0 ∧ c < hw.nr_cpu_ids ∧ s.cpu_online_mask c = true ∧
    (∀ x, x ≠ 0 → x < hw.nr_cpu_ids → s.cpu_online_mask x = true →
      u32 (fq.quick_get c) ≤ u32 (fq.quick_get x)) ∧
    (∀ x, c < x → x < hw.nr_cpu_ids → s.cpu_online_mask x = true →
      u32 (fq.quick_get c) < u32 (fq.quick_get x)) := by
  rcases asmp_work_fn_cases hw fq s with h | h | h
  · exfalso
    rcases hdown with hd | hd
    · rw [h.2.2.2.1] at hd; simp at hd
    · have := cpu_up_mono hw s.cpu_online_mask
        (cpumask_next_zero hw.nr_cpu_ids 0 s.cpu_online_mask) c hd.1
      rw [← h.2.2.2.2.2, hd.2] at this; exact absurd this (by simp)
  · have hc : c = (asmp_work_sample hw fq s).slow_cpu := by
      rcases hdown with hd | hd
      · rw [h.2.2.2.2.2.1] at hd; simpa using hd
      · by_contra hne
        have := cpu_down_other hw s.cpu_online_mask (asmp_work_sample hw fq s).slow_cpu c hne
        rw [← h.2.2.2.2.2.2.2, hd.2, hd.1] at this; exact absurd this (by simp)
    have hs := sample_slow_cpu hw fq s h.2.1
    rw [← hc] at hs
    refine ⟨by rw [h.2.2.2.2.2.1, hc], by rw [hc]; exact h.2.1, hs.1, hs.2.1, hs.2.2.1, hs.2.2.2⟩
  · exfalso
    rcases hdown with hd | hd
    · rw [h.2.2.1] at hd; simp at hd
    · rw [h.2.2.2.2, hd.1] at hd; exact absurd hd.2 (by simp)

/-- Witness for `scale_down_victim`: four idle units with unit 0 at 300000,
units 1 and 3 at 100000 and unit 2 at 200000; the tick takes unit 3 offline,
the later of the two slowest non-primary units. -/
theorem scale_down_victim_witness :
    hotplug_call.cpu_down 3 ∈ (asmp_work_fn (hw_all 4) idle_fq full_state).calls ∧
    u32 (idle_fq.quick_get 1) = u32 (idle_fq.quick_get 3) ∧
    (asmp_work_fn (hw_all 4) idle_fq full_state).calls = [hotplug_call.cpu_down 3] ∧
    full_state.cpu_online_mask 3 = true :=
  ⟨by decide, by decide,
    (scale_down_victim (hw_all 4) idle_fq full_state 3 (Or.inl (by decide))).1,
    (scale_down_victim (hw_all 4) idle_fq full_state 3 (Or.inl (by decide))).2.2.2.1⟩

/-! ## The tick interval -/

/-- The interval cache is coherent at boot (`delay0 = 0`, `delay_jif = 0`, and
0 ms is 0 jiffies), and the power handlers and the disable path do not touch
it. -/
theorem delay_cache_kept (hw : platform) (s : asmp_state) :
    (s.delay0 = 0 → s.delay_jif = 0 → hw.msecs_to_jiffies 0 = 0 → delay_cache_ok hw s) ∧
    (delay_cache_ok hw s →
      delay_cache_ok hw (asmp_suspend hw s).st ∧ delay_cache_ok hw (asmp_resume hw s).st ∧
      delay_cache_ok hw (asmp_stop hw s).st) := by
  refine ⟨fun h0 hj hz => ?_, fun h => ⟨h, h, h⟩⟩
  unfold delay_cache_ok
  rw [h0, hj, hz]

/-- C19: read-before-reschedule of the interval.  For every state and every
value of the configured delay, after a tick the cached interval `delay0`
equals `asmp_param.delay` as read in that tick; and whenever the configured
delay differs from the cached one, or the cache was coherent
(`delay_jif = msecs_to_jiffies(delay0)`, as it is from the initial 0/0 on), the
delay passed to `queue_delayed_work` for the next tick is `msecs_to_jiffies`
of that value, and the cache is coherent after the tick. -/
theorem tick_reads_interval (hw : platform) (fq : cpufreq) (s : asmp_state) :
    (asmp_work_fn hw fq s).st.delay0 = s.asmp_param.delay ∧
    (asmp_work_fn hw fq s).st.asmp_param = s.asmp_param ∧
    (s.asmp_param.delay ≠ s.delay0 ∨ delay_cache_ok hw s →
      (asmp_work_fn hw fq s).st.delay_jif = hw.msecs_to_jiffies s.asmp_param.delay ∧
      (asmp_work_fn hw fq s).st.asmp_work =
        queue_delayed_work s.asmp_work (hw.msecs_to_jiffies s.asmp_param.delay) ∧
      (s.asmp_work = none →
        (asmp_work_fn hw fq s).st.asmp_work =
          some (hw.msecs_to_jiffies s.asmp_param.delay)) ∧
      delay_cache_ok hw (asmp_work_fn hw fq s).st) := by
  have hd0 : (asmp_work_sample hw fq s).delay0 = s.asmp_param.delay := by
    show (if s.asmp_param.delay ≠ s.delay0 then s.asmp_param.delay else s.delay0) = _
    split
    · rfl
    · rename_i hne
      have heq : s.asmp_param.delay = s.delay0 := by simpa using hne
      exact heq.symm
  have hdj : s.asmp_param.delay ≠ s.delay0 ∨ delay_cache_ok hw s →
      (asmp_work_sample hw fq s).delay_jif = hw.msecs_to_jiffies s.asmp_param.delay := by
    intro hor
    show (if s.asmp_param.delay ≠ s.delay0 then hw.msecs_to_jiffies s.asmp_param.delay
      else s.delay_jif) = _
    split
    · rfl
    · rename_i hne
      have heq : s.asmp_param.delay = s.delay0 := by simpa using hne
      rcases hor with h | h
      · exact absurd heq h
      · rw [heq]; exact h
  have hst : (asmp_work_fn hw fq s).st.delay0 = (asmp_work_sample hw fq s).delay0 ∧
      (asmp_work_fn hw fq s).st.delay_jif = (asmp_work_sample hw fq s).delay_jif ∧
      (asmp_work_fn hw fq s).st.asmp_work =
        queue_delayed_work s.asmp_work (asmp_work_sample hw fq s).delay_jif ∧
      (asmp_work_fn hw fq s).st.asmp_param = s.asmp_param := by
    dsimp only [asmp_work_fn]
    split
    · split <;> exact ⟨rfl, rfl, rfl, rfl⟩
    · split
      · split <;> exact ⟨rfl, rfl, rfl, rfl⟩
      · exact ⟨rfl, rfl, rfl, rfl⟩
  refine ⟨by rw [hst.1, hd0], hst.2.2.2, fun hor => ?_⟩
  have hj := hdj hor
  refine ⟨by rw [hst.2.1, hj], by rw [hst.2.2.1, hj], fun hnone => ?_, ?_⟩
  · rw [hst.2.2.1, hj, hnone]; rfl
  · show (asmp_work_fn hw fq s).st.delay_jif =
      hw.msecs_to_jiffies (asmp_work_fn hw fq s).st.delay0
    rw [hst.2.1, hj, hst.1, hd0]

/-- Witness for `tick_reads_interval`: the configured delay was changed from
100 ms to 250 ms; the tick caches 250 and reschedules 25 jiffies ahead. -/
theorem tick_reads_interval_witness :
    retuned_state.asmp_param.delay = 250 ∧ retuned_state.delay0 = 100 ∧
    retuned_state.delay_jif = 10 ∧
    (asmp_work_fn (hw_all 2) midband_fq retuned_state).st.delay0 = 250 ∧
    (asmp_work_fn (hw_all 2) midband_fq retuned_state).st.delay_jif =
      (hw_all 2).msecs_to_jiffies retuned_state.asmp_param.delay ∧
    (asmp_work_fn (hw_all 2) midband_fq retuned_state).st.asmp_work =
      some ((hw_all 2).msecs_to_jiffies retuned_state.asmp_param.delay) :=
  ⟨by decide, by decide, by decide,
    (tick_reads_interval (hw_all 2) midband_fq retuned_state).1,
    ((tick_reads_interval (hw_all 2) midband_fq retuned_state).2.2
      (Or.inl (by decide))).1,
    ((tick_reads_interval (hw_all 2) midband_fq retuned_state).2.2
      (Or.inl (by decide))).2.2.1 (by decide)⟩

/-! ## No reference maximum -/

/-- C20: when the reference unit's maximum rate is unavailable
(`cpufreq_cpu_get(0)` returns NULL, so `max_rate` is 0) both thresholds are 0
for every configuration, and the tick issues no `cpu_down` and takes no unit
offline, whatever the sampled rates, the online count and the cycle counter
are. -/
theorem no_policy_no_scale_down (hw : platform) (fq : cpufreq) (s : asmp_state)
    (hnull : fq.policy_max = none) :
    (asmp_work_sample hw fq s).max_rate = 0 ∧
    (asmp_work_sample hw fq s).up_rate = 0 ∧
    (asmp_work_sample hw fq s).down_rate = 0 ∧
    (∀ c, hotplug_call.cpu_down c ∉ (asmp_work_fn hw fq s).calls) ∧
    (∀ x, s.cpu_online_mask x = true →
      (asmp_work_fn hw fq s).st.cpu_online_mask x = true) := by
  have hm : (asmp_work_sample hw fq s).max_rate = 0 := by
    simp only [asmp_work_sample, hnull]
  have hu : (asmp_work_sample hw fq s).up_rate = 0 := by
    simp [asmp_work_sample, hnull, u32]
  have hd : (asmp_work_sample hw fq s).down_rate = 0 := by
    simp [asmp_work_sample, hnull, u32]
  refine ⟨hm, hu, hd, ?_⟩
  rcases asmp_work_fn_cases hw fq s with h | h | h
  · refine ⟨fun c hc => ?_, fun x hx => ?_⟩
    · rw [h.2.2.2.1] at hc; simp at hc
    · rw [h.2.2.2.2.2]; exact cpu_up_mono hw _ _ x hx
  · have := h.2.2.1
    rw [hd] at this
    exact absurd this (Nat.not_lt_zero _)
  · refine ⟨fun c hc => ?_, fun x hx => ?_⟩
    · rw [h.2.2.1] at hc; simp at hc
    · rw [h.2.2.2.2]; exact hx

/-- Witness for `no_policy_no_scale_down`: two online units reporting rate 0
with no cpufreq policy for unit 0: no unit goes offline. -/
theorem no_policy_no_scale_down_witness :
    no_policy_fq.policy_max = none ∧
    (asmp_work_sample (hw_all 2) no_policy_fq default_state).down_rate = 0 ∧
    (∀ c, hotplug_call.cpu_down c ∉ (asmp_work_fn (hw_all 2) no_policy_fq default_state).calls) :=
  ⟨rfl,
    (no_policy_no_scale_down (hw_all 2) no_policy_fq default_state rfl).2.2.1,
    (no_policy_no_scale_down (hw_all 2) no_policy_fq default_state rfl).2.2.2.1⟩

end autosmp

namespace qpnp_charger_control

/-- C17: the charger current tunable resets to its default on unsafe input.
`check_current_limits x` returns 0 exactly when `500 ≤ x ≤ 1250` and 1
otherwise; for every converted integer `x`, `custom_current_store` leaves
`custom_current = x` when `500 ≤ x ≤ 1250` and `custom_current = 750`
otherwise, without touching `master_switch`; hence after any store
`custom_current` is in `[500, 1250]`. -/
theorem custom_current_safe (t : tunables) (x : Int) (count : Nat) :
    check_current_limits x = (if 500 ≤ x ∧ x ≤ 1250 then 0 else 1) ∧
    (check_current_limits x = 0 ↔ 500 ≤ x ∧ x ≤ 1250) ∧
    (check_current_limits x = 1 ↔ ¬ (500 ≤ x ∧ x ≤ 1250)) ∧
    (custom_current_store t x count).1.custom_current =
      (if 500 ≤ x ∧ x ≤ 1250 then x else 750) ∧
    (custom_current_store t x count).1.master_switch = t.master_switch ∧
    (custom_current_store t x count).2 = (count : Int) ∧
    500 ≤ (custom_current_store t x count).1.custom_current ∧
    (custom_current_store t x count).1.custom_current ≤ 1250 := by
  unfold custom_current_store check_current_limits MIN_CUSTOM_CURRENT MAX_CUSTOM_CURRENT
    DEFAULT_CURRENT
  by_cases h : 500 ≤ x ∧ x ≤ 1250
  · have h2 : x ≥ 500 ∧ x ≤ 1250 := h
    simp [h, h.1, h.2]
  · have h2 : ¬ (x ≥ 500 ∧ x ≤ 1250) := h
    simp [h]

end qpnp_charger_control

namespace alsa_to_h2w

/-- The test `x & (1 << k)` is non-zero exactly when bit `k` of `x` is set. -/
theorem and_one_shiftLeft_ne_zero (x k : Nat) :
    x &&& (1 <<< k) ≠ 0 ↔ x.testBit k = true := by
  rw [Nat.one_shiftLeft]
  constructor
  · intro h
    obtain ⟨i, hi⟩ := Nat.ne_zero_implies_bit_true h
    rw [Nat.testBit_and, Nat.testBit_two_pow] at hi
    simp only [Bool.and_eq_true, decide_eq_true_eq] at hi
    rw [hi.2]; exact hi.1
  · intro h hz
    have e : (x &&& 2 ^ k).testBit k = true := by
      rw [Nat.testBit_and, h, Nat.testBit_two_pow_self]; rfl
    rw [hz] at e
    simp at e

/-- The three outcomes of `switch_to_h2w` in terms of the two bits. -/
theorem switch_to_h2w_cases (hp mic x : Nat) :
    (x.testBit hp = true ∧ x.testBit mic = true ∧ switch_to_h2w hp mic x = 1) ∨
    (x.testBit hp = true ∧ x.testBit mic = false ∧ switch_to_h2w hp mic x = 2) ∨
    (x.testBit hp = false ∧ switch_to_h2w hp mic x = 0) := by
  unfold switch_to_h2w
  by_cases h1 : x &&& (1 <<< hp) ≠ 0
  · have b1 := (and_one_shiftLeft_ne_zero x hp).mp h1
    rw [if_pos h1]
    by_cases h2 : x &&& (1 <<< mic) ≠ 0
    · have b2 := (and_one_shiftLeft_ne_zero x mic).mp h2
      rw [if_pos h2]
      exact Or.inl ⟨b1, b2, rfl⟩
    · have b2 : x.testBit mic = false := by
        have := mt (and_one_shiftLeft_ne_zero x mic).mpr h2
        simpa using this
      rw [if_neg h2]
      exact Or.inr (Or.inl ⟨b1, b2, rfl⟩)
  · have b1 : x.testBit hp = false := by
      have := mt (and_one_shiftLeft_ne_zero x hp).mpr h1
      simpa using this
    rw [if_neg h1]
    exact Or.inr (Or.inr ⟨b1, rfl⟩)

/-- The printers on a state in `0, 1, 2`: they return `-EINVAL` only for a NULL
buffer, and otherwise a positive length with some text in the buffer. -/
theorem print_known_state (sz : Nat) (st : Int) (buf : Bool)
    (hst : st = 0 ∨ st = 1 ∨ st = 2) :
    ((headset_print_name sz st buf).ret = -EINVAL ↔ buf = false) ∧
    ((headset_print_state sz st buf).ret = -EINVAL ↔ buf = false) ∧
    (buf = true → 0 < (headset_print_name sz st buf).ret ∧
      (headset_print_name sz st buf).text ≠ none ∧
      0 < (headset_print_state sz st buf).ret ∧
      (headset_print_state sz st buf).text ≠ none) := by
  cases buf
  · refine ⟨⟨fun _ => rfl, fun _ => rfl⟩, ⟨fun _ => rfl, fun _ => rfl⟩, fun h => ?_⟩
    exact absurd h (by simp)
  · rcases hst with h | h | h <;> subst h <;>
      simp [headset_print_name, headset_print_state, snprintf_line] <;> decide

/-- C21: `switch_to_h2w` is a total mapping of the input switch bitmask onto
the three H2W states.  For every `switch_state` (and whatever the two switch
codes are) it returns 1 (headset) exactly when both the `SW_HEADPHONE_INSERT`
and the `SW_MICROPHONE_INSERT` bits are set, 2 (headphone) exactly when the
headphone bit is set and the microphone bit is clear, and 0 (no device)
exactly when the headphone bit is clear, whatever the microphone bit is; the
result is always 0, 1 or 2, so for a state reported through it
`headset_print_name` and `headset_print_state` return `-EINVAL` only for a
NULL buffer, never through the default branch of their switch: with a buffer
they return a positive length and leave text in the buffer. -/
theorem switch_to_h2w_total (hp mic sz x : Nat) (buf : Bool) :
    (switch_to_h2w hp mic x = 1 ↔ x.testBit hp = true ∧ x.testBit mic = true) ∧
    (switch_to_h2w hp mic x = 2 ↔ x.testBit hp = true ∧ x.testBit mic = false) ∧
    (switch_to_h2w hp mic x = 0 ↔ x.testBit hp = false) ∧
    (switch_to_h2w hp mic x = 0 ∨ switch_to_h2w hp mic x = 1 ∨
      switch_to_h2w hp mic x = 2) ∧
    ((headset_print_name sz (switch_to_h2w hp mic x) buf).ret = -EINVAL ↔ buf = false) ∧
    ((headset_print_state sz (switch_to_h2w hp mic x) buf).ret = -EINVAL ↔ buf = false) ∧
    0 < (headset_print_name sz (switch_to_h2w hp mic x) true).ret ∧
    (headset_print_name sz (switch_to_h2w hp mic x) true).text ≠ none ∧
    0 < (headset_print_state sz (switch_to_h2w hp mic x) true).ret ∧
    (headset_print_state sz (switch_to_h2w hp mic x) true).text ≠ none := by
  have hrange : switch_to_h2w hp mic x = 0 ∨ switch_to_h2w hp mic x = 1 ∨
      switch_to_h2w hp mic x = 2 := by
    rcases switch_to_h2w_cases hp mic x with h | h | h
    · exact Or.inr (Or.inl h.2.2)
    · exact Or.inr (Or.inr h.2.2)
    · exact Or.inl h.2
  have hp1 := print_known_state sz (switch_to_h2w hp mic x) buf hrange
  have hp2 := (print_known_state sz (switch_to_h2w hp mic x) true hrange).2.2 rfl
  refine ⟨?_, ?_, ?_, hrange, hp1.1, hp1.2.1, hp2.1, hp2.2.1, hp2.2.2.1, hp2.2.2.2⟩
  · rcases switch_to_h2w_cases hp mic x with h | h | h
    · exact ⟨fun _ => ⟨h.1, h.2.1⟩, fun _ => h.2.2⟩
    · refine ⟨fun e => ?_, fun e => ?_⟩
      · rw [h.2.2] at e; exact absurd e (by decide)
      · rw [h.2.1] at e; exact absurd e.2 (by simp)
    · refine ⟨fun e => ?_, fun e => ?_⟩
      · rw [h.2] at e; exact absurd e (by decide)
      · rw [h.1] at e; exact absurd e.1 (by simp)
  · rcases switch_to_h2w_cases hp mic x with h | h | h
    · refine ⟨fun e => ?_, fun e => ?_⟩
      · rw [h.2.2] at e; exact absurd e (by decide)
      · rw [h.2.1] at e; exact absurd e.2 (by simp)
    · exact ⟨fun _ => ⟨h.1, h.2.1⟩, fun _ => h.2.2⟩
    · refine ⟨fun e => ?_, fun e => ?_⟩
      · rw [h.2] at e; exact absurd e (by decide)
      · rw [h.1] at e; exact absurd e.1 (by simp)
  · rcases switch_to_h2w_cases hp mic x with h | h | h
    · refine ⟨fun e => ?_, fun e => ?_⟩
      · rw [h.2.2] at e; exact absurd e (by decide)
      · rw [h.1] at e; exact absurd e (by simp)
    · refine ⟨fun e => ?_, fun e => ?_⟩
      · rw [h.2.2] at e; exact absurd e (by decide)
      · rw [h.1] at e; exact absurd e (by simp)
    · exact ⟨fun _ => h.1, fun _ => h.2⟩

end alsa_to_h2w
